import Mathlib

/-!
Verification of the cowrie-dashboard ingestion/aggregation core.

Shallow embedding of `ip_utils.py` (BoundedCounter, BoundedSet) and of the
`CowrieMonitor` class in `cowrie_dashboard.py` (stats update, alert checks,
async ASN update, stats summary, log-rotation detection).

Python dictionaries preserve insertion order, so a dict is embedded as an
association list in insertion order: assignment to an existing key keeps its
position, a new key is appended at the end.  `sorted` in Python is a stable
sort, embedded with `List.mergeSort` (also stable).
-/

/-- Stable insertion of `a` into a sorted list: `a` goes after every element
`b` with `le b a`, so equal elements keep their original relative order. -/
def stableInsert {α : Type} (le : α → α → Bool) (a : α) : List α → List α
  | [] => [a]
  | b :: l => if le b a then b :: stableInsert le a l else a :: b :: l

/-- Stable sort (insertion sort, processing the list left to right).  This is
the embedding of Python's stable `sorted`: it produces the unique stably
sorted rearrangement. -/
def stableSort {α : Type} (le : α → α → Bool) (l : List α) : List α :=
  l.foldl (fun acc a => stableInsert le a acc) []

/-- `m.get(k)` on a Python dict embedded as an insertion-ordered assoc list. -/
def assocGet {α : Type} [DecidableEq α] (m : List (α × Nat)) (k : α) : Option Nat :=
  match m with
  | [] => none
  | (k', v) :: rest => if k' = k then some v else assocGet rest k

/-- `m[k] = v` on a Python dict: existing keys keep their position, new keys
are appended at the end. -/
def assocSet {α : Type} [DecidableEq α] (m : List (α × Nat)) (k : α) (v : Nat) :
    List (α × Nat) :=
  match m with
  | [] => [(k, v)]
  | (k', v') :: rest => if k' = k then (k, v) :: rest else (k', v') :: assocSet rest k v

/-- Embedding of `ip_utils.BoundedCounter`: a dict from keys to counts plus the
configured `maxsize` (`self._data`, `self._maxsize`). The lock is irrelevant to
the sequential semantics. -/
structure BoundedCounter (α : Type) where
  data : List (α × Nat)
  maxsize : Nat
deriving DecidableEq

namespace BoundedCounter

variable {α : Type} [DecidableEq α]

/-- `BoundedCounter._maybe_evict`: if `len(self._data) > self._maxsize`, sort
keys by count ascending (stably, Python `sorted(self._data, key=self._data.get)`)
and delete the first `max(1, maxsize // 10)` of them. -/
def maybeEvict (c : BoundedCounter α) : BoundedCounter α :=
  if c.data.length > c.maxsize then
    let evictCount := max 1 (c.maxsize / 10)
    let sortedKeys := (stableSort (fun a b => a.2 ≤ b.2) c.data).map Prod.fst
    let evicted := sortedKeys.take evictCount
    { c with data := c.data.filter (fun p => decide (p.1 ∉ evicted)) }
  else c

/-- `BoundedCounter.increment`: bump the key, read the new count, then run
`_maybe_evict`; returns the count read before eviction together with the new
state. -/
def increment (c : BoundedCounter α) (key : α) : Nat × BoundedCounter α :=
  let newData := assocSet c.data key ((assocGet c.data key).getD 0 + 1)
  let count := (assocGet newData key).getD 0
  (count, maybeEvict { c with data := newData })

/-- `BoundedCounter.get(key, default=0)`. -/
def get (c : BoundedCounter α) (key : α) : Nat :=
  (assocGet c.data key).getD 0

/-- `len(counter)`. -/
def size (c : BoundedCounter α) : Nat :=
  c.data.length

/-- `BoundedCounter.top(n)`: entries sorted by count descending (stable),
first `n` kept. -/
def top (c : BoundedCounter α) (n : Nat) : List (α × Nat) :=
  (stableSort (fun a b => b.2 ≤ a.2) c.data).take n

/-- Fold a list of increments into a counter, ignoring the returned counts. -/
def incrementAll (c : BoundedCounter α) (keys : List α) : BoundedCounter α :=
  keys.foldl (fun c k => (c.increment k).2) c

end BoundedCounter

/-- Embedding of `ip_utils.BoundedSet`: stored items (insertion order),
`self._maxsize` and `self._overflow_count`. -/
structure BoundedSet (α : Type) where
  data : List α
  maxsize : Nat
  overflowCount : Nat
deriving DecidableEq

namespace BoundedSet

variable {α : Type} [DecidableEq α]

/-- `BoundedSet.add`: no-op on an already-stored item; store while below
capacity; otherwise only bump the overflow count. -/
def add (s : BoundedSet α) (item : α) : BoundedSet α :=
  if item ∈ s.data then s
  else if s.data.length < s.maxsize then { s with data := s.data ++ [item] }
  else { s with overflowCount := s.overflowCount + 1 }

/-- `item in s` (`__contains__`). -/
def mem (s : BoundedSet α) (item : α) : Prop :=
  item ∈ s.data

instance (s : BoundedSet α) (item : α) : Decidable (s.mem item) := by
  unfold mem; infer_instance

/-- `len(s)` — stored count only. -/
def size (s : BoundedSet α) : Nat :=
  s.data.length

/-- `total_seen` property: stored plus overflow. -/
def totalSeen (s : BoundedSet α) : Nat :=
  s.data.length + s.overflowCount

end BoundedSet

/-! ## Embedding of `cowrie_dashboard.py`: records and monitor state

A parsed log entry is a Python dict; the fields the monitor reads are embedded
as optional fields (`none` = key absent).  Python truthiness is embedded
explicitly: an absent or empty string is falsy, an absent or zero coordinate is
falsy.  The GeoIP/ASN enrichment services are external collaborators (their
sources live outside this repository); `updateStats` takes them as function
parameters exactly where the code calls `enrich_log_entry`, and concrete
scenario claims instantiate them with the identity (a record the collaborators
cannot enrich, which their contract permits). -/

/-- `geo_location` sub-dict of a record. -/
structure GeoLocation where
  country : Option String
  city : Option String
  latitude : Option ℚ
  longitude : Option ℚ
deriving DecidableEq

/-- `asn_info` sub-dict of a record. -/
structure AsnInfo where
  asn : Option String
  organization : Option String
deriving DecidableEq

/-- A parsed log entry (the dict fields the monitor reads). -/
structure Record where
  eventid : Option String
  srcIp : Option String
  timestamp : Option String
  username : Option String
  password : Option String
  input : Option String
  geoLocation : Option GeoLocation
  asnInfo : Option AsnInfo
deriving DecidableEq

/-- A record with every optional field absent; scenario records are built by
updating it. -/
def emptyRecord : Record :=
  ⟨none, none, none, none, none, none, none, none⟩

/-- `entry.get('geo_location', {}).get('country', 'Unknown')`. -/
def recCountry (r : Record) : String :=
  match r.geoLocation with
  | some g => g.country.getD "Unknown"
  | none => "Unknown"

/-- `entry.get('asn_info', {}).get('organization', 'Unknown')`. -/
def recOrganization (r : Record) : String :=
  match r.asnInfo with
  | some a => a.organization.getD "Unknown"
  | none => "Unknown"

/-- `entry.get('asn_info', {}).get('asn', 'Unknown')`. -/
def recAsn (r : Record) : String :=
  match r.asnInfo with
  | some a => a.asn.getD "Unknown"
  | none => "Unknown"

/-- `entry.get('geo_location', {}).get('latitude')`. -/
def recLatitude (r : Record) : Option ℚ :=
  r.geoLocation.bind GeoLocation.latitude

/-- `entry.get('geo_location', {}).get('longitude')`. -/
def recLongitude (r : Record) : Option ℚ :=
  r.geoLocation.bind GeoLocation.longitude

/-- `asn_info.get('organization')` through an optional `asn_info`. -/
def recOrgOpt (r : Record) : Option String :=
  r.asnInfo.bind AsnInfo.organization

/-- `asn_info.get('asn')` through an optional `asn_info`. -/
def recAsnOpt (r : Record) : Option String :=
  r.asnInfo.bind AsnInfo.asn

/-- One entry of the `recent_attacks` deque.  The two call sites store
slightly different shapes (e.g. the connect branch stores `entry.get('src_ip')`
which may be `None`, the login branch stores `entry.get('src_ip', 'Unknown')`),
so string-or-None fields are optional. -/
structure AttackEntry where
  timestamp : Option String
  ip : Option String
  event : String
  country : String
  organization : String
  latitude : Option ℚ
  longitude : Option ℚ
  username : Option String
  password : Option String
deriving DecidableEq

/-- One entry of the `attack_timeline` deque. -/
structure TimelineEntry where
  timestamp : Option String
  event : Option String
  ip : Option String
  country : String
  organization : String
  username : Option String
deriving DecidableEq

/-- One `map_data['markers']` entry.  `geo['country']` is a direct index in the
code; records reaching this branch carry a complete geo dict (the enrichment
collaborator adds all geo keys together), embedded as the optional field
stored as-is. -/
structure MapMarker where
  lat : ℚ
  lng : ℚ
  ip : Option String
  country : Option String
  city : Option String
  timestamp : Option String
  event : Option String
  username : Option String
  organization : String
  asn : String
deriving DecidableEq

/-- One `map_data['heatpoints']` entry. -/
structure HeatPoint where
  lat : ℚ
  lng : ℚ
  intensity : Nat
deriving DecidableEq

/-- An alert dict as built by `_add_alert` (the wall-clock timestamp taken
from `datetime.now()` is outside the pure model and omitted). -/
structure Alert where
  level : String
  message : String
  ip : Option String
  country : String
  organization : String
deriving DecidableEq

/-- Which of the four rules of `check_alerts` emitted an alert, with the rule's
de-duplication key; this instruments the `_add_alert` call sites so emissions
can be counted per rule and key. -/
inductive AlertCategory where
  | highFreq
  | longPassword
  | countryVolume
  | orgVolume
deriving DecidableEq

/-- An instrumented alert emission. -/
structure AlertEvent where
  category : AlertCategory
  key : String
deriving DecidableEq

/-- A `collections.deque(maxlen=n)`: oldest entries drop off the front. -/
structure BoundedDeque (α : Type) where
  items : List α
  maxlen : Nat
deriving DecidableEq

/-- `deque.append`: append right, drop left when over `maxlen`. -/
def BoundedDeque.push {α : Type} (d : BoundedDeque α) (x : α) : BoundedDeque α :=
  let l := d.items ++ [x]
  ⟨if d.maxlen < l.length then l.tail else l, d.maxlen⟩

/-- The summary dict built by `get_stats_summary` under the lock.  The float
success rate is embedded as an exact rational. -/
structure StatsSummary where
  totalConnections : Nat
  failedLogins : Nat
  successfulLogins : Nat
  commandsExecuted : Nat
  uniqueIps : Nat
  uniquePasswords : Nat
  uniqueUsers : Nat
  successRate : ℚ
  topIps : List (Option String × Nat)
  topPasswords : List (String × Nat)
  topUsers : List (String × Nat)
  topCommands : List (String × Nat)
  topCountries : List (String × Nat)
  topOrganizations : List (String × Nat)
  topAsns : List (String × Nat)
  recentAttacks : List AttackEntry
  mapMarkers : List MapMarker
  mapHeatpoints : List HeatPoint
  alerts : List Alert
deriving DecidableEq

/-- The `CowrieMonitor` mutable state: the `stats` dict, alert history,
already-alerted sets, snapshot cache and the async enrichment queue (held with
an explicit length, as `queue.Queue` tracks its size).  `top_ips` and
`unique_ips` are keyed by `entry.get('src_ip')`, which can be `None`, hence
the `Option String` key type. -/
structure MonitorState where
  totalConnections : Nat
  failedLogins : Nat
  successfulLogins : Nat
  commandsExecuted : Nat
  uniqueIps : BoundedSet (Option String)
  uniquePasswords : BoundedSet String
  uniqueUsers : BoundedSet String
  recentAttacks : BoundedDeque AttackEntry
  topIps : BoundedCounter (Option String)
  topPasswords : BoundedCounter String
  topUsers : BoundedCounter String
  topCommands : BoundedCounter String
  attackTimeline : BoundedDeque TimelineEntry
  countries : BoundedCounter String
  organizations : BoundedCounter String
  asns : BoundedCounter String
  mapMarkers : BoundedDeque MapMarker
  mapHeatpoints : BoundedDeque HeatPoint
  alerts : BoundedDeque Alert
  alertedIps : BoundedSet String
  alertedCountries : BoundedSet String
  alertedOrgs : BoundedSet String
  statsDirty : Bool
  statsCache : Option StatsSummary
  statsCacheTime : ℚ
  enrichQueue : List Record
  enrichQueueLen : Nat
  enrichQueueCap : Nat
deriving DecidableEq

/-- The configurable capacities of `dashboard_config.py` (defaults below). -/
structure DashboardConfig where
  maxUniqueIps : Nat
  maxUniquePasswords : Nat
  maxUniqueUsers : Nat
  maxRecentAttacks : Nat
  maxTopEntries : Nat
  maxTimelineEntries : Nat
  maxAlerts : Nat
  maxMapMarkers : Nat
  enrichmentQueueSize : Nat
  statsCacheTtl : ℚ

/-- The environment-variable defaults of `dashboard_config.py`. -/
def defaultConfig : DashboardConfig :=
  ⟨50000, 20000, 10000, 100, 10000, 50, 50, 1000, 1000, 2⟩

/-- `CowrieMonitor.__init__`: fresh stats, alert history, alerted sets
(capacities 10000/500/5000 are literals in the code), dirty cache, empty
queue. -/
def initMonitorState (cfg : DashboardConfig) : MonitorState where
  totalConnections := 0
  failedLogins := 0
  successfulLogins := 0
  commandsExecuted := 0
  uniqueIps := ⟨[], cfg.maxUniqueIps, 0⟩
  uniquePasswords := ⟨[], cfg.maxUniquePasswords, 0⟩
  uniqueUsers := ⟨[], cfg.maxUniqueUsers, 0⟩
  recentAttacks := ⟨[], cfg.maxRecentAttacks⟩
  topIps := ⟨[], cfg.maxTopEntries⟩
  topPasswords := ⟨[], cfg.maxTopEntries⟩
  topUsers := ⟨[], cfg.maxTopEntries⟩
  topCommands := ⟨[], cfg.maxTopEntries⟩
  attackTimeline := ⟨[], cfg.maxTimelineEntries⟩
  countries := ⟨[], 500⟩
  organizations := ⟨[], cfg.maxTopEntries⟩
  asns := ⟨[], cfg.maxTopEntries⟩
  mapMarkers := ⟨[], cfg.maxMapMarkers⟩
  mapHeatpoints := ⟨[], cfg.maxMapMarkers⟩
  alerts := ⟨[], cfg.maxAlerts⟩
  alertedIps := ⟨[], 10000, 0⟩
  alertedCountries := ⟨[], 500, 0⟩
  alertedOrgs := ⟨[], 5000, 0⟩
  statsDirty := true
  statsCache := none
  statsCacheTime := 0
  enrichQueue := []
  enrichQueueLen := 0
  enrichQueueCap := cfg.enrichmentQueueSize

/-- The alert dict of `_add_alert`. -/
def mkAlert (level message : String) (entry : Record) : Alert where
  level := level
  message := message
  ip := entry.srcIp
  country := recCountry entry
  organization := recOrganization entry

/-- `CowrieMonitor._process_login`: login counters, password/username
sets and frequency counters, and the recent-attacks entry. -/
def processLogin (s : MonitorState) (entry : Record) (isSuccess : Bool) : MonitorState :=
  let s1 :=
    if isSuccess then { s with successfulLogins := s.successfulLogins + 1 }
    else { s with failedLogins := s.failedLogins + 1 }
  let eventType := if isSuccess then "login.success" else "login.failed"
  let s2 :=
    match entry.password with
    | some p =>
      if p ≠ "" then
        { s1 with uniquePasswords := s1.uniquePasswords.add p,
                  topPasswords := (s1.topPasswords.increment p).2 }
      else s1
    | none => s1
  let s3 :=
    match entry.username with
    | some u =>
      if u ≠ "" then
        { s2 with uniqueUsers := s2.uniqueUsers.add u,
                  topUsers := (s2.topUsers.increment u).2 }
      else s2
    | none => s2
  { s3 with
    recentAttacks := s3.recentAttacks.push {
      timestamp := some (entry.timestamp.getD "")
      ip := some (entry.srcIp.getD "Unknown")
      event := eventType
      country := recCountry entry
      organization := recOrganization entry
      latitude := recLatitude entry
      longitude := recLongitude entry
      username := entry.username
      password := entry.password } }

/-- Event-kind dispatch of `update_stats` (lines 381-407): `eventid` and `ip`
are the values captured before enrichment, `entry` the enriched record. -/
def dispatchStage (s : MonitorState) (eventid ip : Option String) (entry : Record) :
    MonitorState :=
  if eventid = some "cowrie.session.connect" then
    { s with totalConnections := s.totalConnections + 1
             uniqueIps := s.uniqueIps.add ip
             topIps := (s.topIps.increment ip).2
             recentAttacks := s.recentAttacks.push
               { timestamp := entry.timestamp
                 ip := ip
                 event := "connection"
                 country := recCountry entry
                 organization := recOrganization entry
                 latitude := recLatitude entry
                 longitude := recLongitude entry
                 username := entry.username
                 password := entry.password } }
  else if eventid = some "cowrie.login.failed" then processLogin s entry false
  else if eventid = some "cowrie.login.success" then processLogin s entry true
  else if eventid = some "cowrie.command.input" then
    let sc := { s with commandsExecuted := s.commandsExecuted + 1 }
    match entry.input with
    | some cmd =>
      if cmd ≠ "" then { sc with topCommands := (sc.topCommands.increment cmd).2 }
      else sc
    | none => sc
  else s

/-- Map-data update of `update_stats` (lines 410-428). -/
def mapStage (s : MonitorState) (eventid : Option String) (entry : Record) :
    MonitorState :=
  match entry.geoLocation with
  | some geo =>
    match geo.latitude, geo.longitude with
    | some lat, some lng =>
      if lat ≠ 0 ∧ lng ≠ 0 then
        { s with
          mapMarkers := s.mapMarkers.push
            { lat := lat, lng := lng, ip := entry.srcIp, country := geo.country
              city := geo.city, timestamp := entry.timestamp, event := eventid
              username := entry.username, organization := recOrganization entry
              asn := recAsn entry }
          mapHeatpoints := s.mapHeatpoints.push ⟨lat, lng, 1⟩ }
      else s
    | _, _ => s
  | none => s

/-- Inline country-counter update of `update_stats` (lines 431-434). -/
def countryStage (s : MonitorState) (entry : Record) : MonitorState :=
  match entry.geoLocation with
  | some geo =>
    let country := geo.country.getD "Unknown"
    if country ≠ "Unknown" then
      { s with countries := (s.countries.increment country).2 }
    else s
  | none => s

/-- Inline organization-counter update of `update_stats` (lines 437-441). -/
def orgStage (s : MonitorState) (entry : Record) : MonitorState :=
  match recOrgOpt entry with
  | some org =>
    if org ≠ "" then { s with organizations := (s.organizations.increment org).2 }
    else s
  | none => s

/-- Inline ASN-counter update of `update_stats` (lines 438-443). -/
def asnStage (s : MonitorState) (entry : Record) : MonitorState :=
  match recAsnOpt entry with
  | some asn =>
    if asn ≠ "" then { s with asns := (s.asns.increment asn).2 }
    else s
  | none => s

/-- Timeline append and dirty flag of `update_stats` (lines 446-455). -/
def timelineDirtyStage (s : MonitorState) (eventid ip : Option String)
    (entry : Record) : MonitorState :=
  { s with
    attackTimeline := s.attackTimeline.push {
      timestamp := entry.timestamp
      event := eventid
      ip := ip
      country := recCountry entry
      organization := recOrganization entry
      username := entry.username }
    statsDirty := true }

/-- The `with self._lock:` section of `update_stats` (lines 380-455): event
dispatch, map data, inline country and ASN counters, timeline, dirty flag,
in code order. -/
def statsPhase (s : MonitorState) (eventid ip : Option String) (entry : Record) :
    MonitorState :=
  timelineDirtyStage
    (asnStage
      (orgStage
        (countryStage
          (mapStage (dispatchStage s eventid ip entry) eventid entry) entry) entry) entry)
    eventid ip entry

/-- First rule of `check_alerts` (lines 273-277): on a connect event whose
address frequency strictly exceeds 10 and whose address has not alerted
before, mark the address alerted and emit a HIGH alert. -/
def alertRuleHighFreq (s : MonitorState) (entry : Record) :
    MonitorState × List AlertEvent :=
  let ip := entry.srcIp.getD ""
  if entry.eventid = some "cowrie.session.connect"
      ∧ s.topIps.get (some ip) > 10 ∧ ¬ ip ∈ s.alertedIps.data then
    ({ s with alertedIps := s.alertedIps.add ip
              alerts := s.alerts.push
                (mkAlert "HIGH" ("High frequency attacks from " ++ ip) entry) },
     [⟨AlertCategory.highFreq, ip⟩])
  else (s, [])

/-- Second rule of `check_alerts` (lines 279-283): on a successful login with
a non-empty password strictly longer than 20 characters, emit a MEDIUM alert
with no de-duplication. -/
def alertRuleLongPassword (s : MonitorState) (entry : Record) :
    MonitorState × List AlertEvent :=
  let ip := entry.srcIp.getD ""
  let password := entry.password.getD ""
  if entry.eventid = some "cowrie.login.success" ∧ password ≠ ""
      ∧ password.length > 20 then
    ({ s with alerts := s.alerts.push
                (mkAlert "MEDIUM" ("Suspicious long password from " ++ ip) entry) },
     [⟨AlertCategory.longPassword, ip⟩])
  else (s, [])

/-- Third rule of `check_alerts` (lines 287-294): a known country whose
frequency strictly exceeds 20 and which has not alerted before. -/
def alertRuleCountry (s : MonitorState) (entry : Record) :
    MonitorState × List AlertEvent :=
  match entry.geoLocation with
  | some geo =>
    let country := geo.country.getD "Unknown"
    if country ≠ "Unknown" ∧ s.countries.get country > 20
        ∧ ¬ country ∈ s.alertedCountries.data then
      ({ s with alertedCountries := s.alertedCountries.add country
                alerts := s.alerts.push
                  (mkAlert "MEDIUM" ("High attack volume from " ++ country) entry) },
       [⟨AlertCategory.countryVolume, country⟩])
    else (s, [])
  | none => (s, [])

/-- Fourth rule of `check_alerts` (lines 298-304): a present organization
whose frequency strictly exceeds 15 and which has not alerted before. -/
def alertRuleOrg (s : MonitorState) (entry : Record) :
    MonitorState × List AlertEvent :=
  match recOrgOpt entry with
  | some org =>
    if org ≠ "" ∧ s.organizations.get org > 15 ∧ ¬ org ∈ s.alertedOrgs.data then
      ({ s with alertedOrgs := s.alertedOrgs.add org
                alerts := s.alerts.push
                  (mkAlert "MEDIUM" ("High attack volume from " ++ org) entry) },
       [⟨AlertCategory.orgVolume, org⟩])
    else (s, [])
  | none => (s, [])

/-- `CowrieMonitor.check_alerts`: the four alert rules in code order, each
guarded by its threshold (strict `>`) and, except for the long-password rule,
by the corresponding already-alerted set.  Returns the new state together with
the instrumented emissions. -/
def checkAlerts (s : MonitorState) (entry : Record) : MonitorState × List AlertEvent :=
  let r1 := alertRuleHighFreq s entry
  let r2 := alertRuleLongPassword r1.1 entry
  let r3 := alertRuleCountry r2.1 entry
  let r4 := alertRuleOrg r3.1 entry
  (r4.1, r1.2 ++ r2.2 ++ r3.2 ++ r4.2)

/-- `self._enrich_queue.put_nowait(entry)` with the drop-on-full handler. -/
def enqueueRecord (s : MonitorState) (entry : Record) : MonitorState :=
  if s.enrichQueueLen < s.enrichQueueCap then
    { s with enrichQueue := s.enrichQueue ++ [entry],
             enrichQueueLen := s.enrichQueueLen + 1 }
  else s

/-- Tail of `update_stats`: queue the record for async ASN enrichment only if
the inline lookup yielded no organization. -/
def enqueuePhase (s : MonitorState) (entry : Record) : MonitorState :=
  match recOrgOpt entry with
  | some org => if org ≠ "" then s else enqueueRecord s entry
  | none => enqueueRecord s entry

/-- `CowrieMonitor.update_stats`, parametric in the two enrichment
collaborators: capture `eventid`/`src_ip`, enrich (GeoIP then ASN), run the
locked stats phase, check alerts, then the enrichment-queue phase. -/
def updateStats (geoE asnE : Record → Record) (s : MonitorState) (entry0 : Record) :
    MonitorState × List AlertEvent :=
  let eventid := entry0.eventid
  let ip := entry0.srcIp
  let entry := asnE (geoE entry0)
  let s1 := statsPhase s eventid ip entry
  let r := checkAlerts s1 entry
  (enqueuePhase r.1 entry, r.2)

/-- `CowrieMonitor._update_asn_stats`: on an entry with `asn_info`, bump the
organization and ASN counters and set the dirty flag; nothing else. -/
def updateAsnStats (s : MonitorState) (entry : Record) : MonitorState :=
  match entry.asnInfo with
  | none => s
  | some info =>
    let s1 :=
      match info.organization with
      | some org =>
        if org ≠ "" then { s with organizations := (s.organizations.increment org).2 }
        else s
      | none => s
    let s2 :=
      match info.asn with
      | some asn =>
        if asn ≠ "" then { s1 with asns := (s1.asns.increment asn).2 }
        else s1
      | none => s1
    { s2 with statsDirty := true }

/-- The summary computed under the lock in `get_stats_summary` (lines
561-587). -/
def computeSummary (s : MonitorState) : StatsSummary :=
  let totalLogins := s.failedLogins + s.successfulLogins
  { totalConnections := s.totalConnections
    failedLogins := s.failedLogins
    successfulLogins := s.successfulLogins
    commandsExecuted := s.commandsExecuted
    uniqueIps := s.uniqueIps.size
    uniquePasswords := s.uniquePasswords.size
    uniqueUsers := s.uniqueUsers.size
    successRate := ((s.successfulLogins : ℚ) / ((max 1 totalLogins : Nat) : ℚ)) * 100
    topIps := s.topIps.top 500
    topPasswords := s.topPasswords.top 500
    topUsers := s.topUsers.top 500
    topCommands := s.topCommands.top 500
    topCountries := s.countries.top 500
    topOrganizations := s.organizations.top 500
    topAsns := s.asns.top 500
    recentAttacks := s.recentAttacks.items.drop (s.recentAttacks.items.length - 20)
    mapMarkers := s.mapMarkers.items
    mapHeatpoints := s.mapHeatpoints.items
    alerts := s.alerts.items }

/-- `CowrieMonitor.get_stats_summary`: serve the cached summary while present,
clean, and younger than the TTL; otherwise recompute, cache and clear dirty. -/
def getStatsSummary (ttl now : ℚ) (s : MonitorState) : StatsSummary × MonitorState :=
  match s.statsCache with
  | some cached =>
    if s.statsDirty = false ∧ now - s.statsCacheTime < ttl then (cached, s)
    else
      let summary := computeSummary s
      (summary, { s with statsCache := some summary, statsCacheTime := now,
                         statsDirty := false })
  | none =>
    let summary := computeSummary s
    (summary, { s with statsCache := some summary, statsCacheTime := now,
                       statsDirty := false })

/-- The success-rate formula exactly as the specification words it
(modelled from the spec for comparison): `succeeded / max(1, succeeded+failed)`. -/
def specSuccessRate (succeeded failed : Nat) : ℚ :=
  (succeeded : ℚ) / ((max 1 (succeeded + failed) : Nat) : ℚ)

/-- Process a list of records through `update_stats`, accumulating the
instrumented alert emissions in order. -/
def runUpdates (geoE asnE : Record → Record) (s : MonitorState) (rs : List Record) :
    MonitorState × List AlertEvent :=
  rs.foldl (fun acc r =>
    let step := updateStats geoE asnE acc.1 r
    (step.1, acc.2 ++ step.2)) (s, [])

/-! ## Embedding of the log tailer (`_detect_log_rotation`, `monitor_logs`) -/

/-- The `os.stat` facts the tailer reads. -/
structure FileStat where
  inode : Nat
  size : Nat
deriving DecidableEq

/-- Tailer-owned state: saved byte offset and last known inode. -/
structure TailState where
  lastPosition : Nat
  lastInode : Option Nat
deriving DecidableEq

/-- `CowrieMonitor._detect_log_rotation`: size shrank below the saved offset,
or inode changed, means rotation (offset reset to 0); `none` stands for the
`OSError` path, which reports no rotation and changes nothing. -/
def detectLogRotation (ts : TailState) (st : Option FileStat) : Bool × TailState :=
  match st with
  | none => (false, ts)
  | some st =>
    if st.size < ts.lastPosition then
      (true, { lastPosition := 0, lastInode := some st.inode })
    else
      match ts.lastInode with
      | some last =>
        if last ≠ st.inode then (true, { lastPosition := 0, lastInode := some st.inode })
        else (false, { ts with lastInode := some st.inode })
      | none => (false, { ts with lastInode := some st.inode })

/-- The current target file: identity and full byte content. -/
structure FileState where
  inode : Nat
  content : List Char
deriving DecidableEq

/-- Split a character stream into lines, keeping the terminators, exactly as
`readlines` does (a trailing piece without a terminator is returned too). -/
def splitLinesAux : List Char → List Char → List (List Char)
  | [], acc => if acc = [] then [] else [acc.reverse]
  | c :: cs, acc =>
    if c = '\n' then (acc.reverse ++ ['\n']) :: splitLinesAux cs []
    else splitLinesAux cs (c :: acc)

/-- `readlines` on a character stream. -/
def splitLines (cs : List Char) : List (List Char) :=
  splitLinesAux cs []

/-- One poll iteration of `monitor_logs` in the path-exists, no-exception case
(lines 509-520): detect rotation, (re)open and seek to the saved offset when
the handle is fresh or rotation fired (either way the next read starts at the
saved offset, which rotation has just reset to 0), read all available lines,
advance the offset to the stream position.  Returns the lines read and the new
tail state. -/
def pollIteration (ts : TailState) (f : FileState) :
    List (List Char) × TailState :=
  let det := detectLogRotation ts (some ⟨f.inode, f.content.length⟩)
  let ts1 := det.2
  let chunk := f.content.drop ts1.lastPosition
  (splitLines chunk, { ts1 with lastPosition := f.content.length })

/-- Keys of capacity 10 scenario: eleven distinct keys, one increment each. -/
def c1Keys : List String := (List.range 11).map (fun i => "k" ++ toString i)

/-- The counter of the capacity scenario after the eleventh (triggering) insert. -/
def c1Run : BoundedCounter String := BoundedCounter.incrementAll ⟨[], 10⟩ c1Keys

/-- A full capacity-1 set holding "a". -/
def c4Full : BoundedSet String := (BoundedSet.mk [] 1 0).add "a"

/-- Capacity-2 set after adding "a", "b", "c", "a" in order. -/
def c7Set : BoundedSet String := ((((BoundedSet.mk [] 2 0).add "a").add "b").add "c").add "a"

/-- Capacity-2 counter holding two keys with count 2 each, built by increments. -/
def c10State : BoundedCounter String := BoundedCounter.incrementAll ⟨[], 2⟩ ["a", "a", "b", "b"]

/-- A connect event from a fixed source address. -/
def connRec : Record :=
  { emptyRecord with eventid := some "cowrie.session.connect", srcIp := some "1.2.3.4" }

/-- Run `n` copies of the connect record from a fresh monitor with identity
enrichers. -/
def c5Run (n : Nat) : MonitorState × List AlertEvent :=
  runUpdates id id (initMonitorState defaultConfig) (List.replicate n connRec)

/-- A successful-login event carrying a given password. -/
def lpRec (pw : String) : Record :=
  { emptyRecord with eventid := some "cowrie.login.success", srcIp := some "9.9.9.9",
                     username := some "root", password := some pw }

/-- A 21-character password. -/
def pw21 : String := "aaaaaaaaaaaaaaaaaaaaa"

/-- A 20-character password. -/
def pw20 : String := "aaaaaaaaaaaaaaaaaaaa"

/-- An aggregate state with one successful and no failed logins. -/
def c2State : MonitorState :=
  { initMonitorState defaultConfig with successfulLogins := 1 }

/-- Tail state of the rotation scenario: saved offset 100. -/
def c8Tail : TailState := { lastPosition := 100, lastInode := some 7 }

/-- A 40-byte file for the rotation scenario. -/
def c8File : FileState := { inode := 7, content := List.replicate 40 'x' }

/-- The i-th country name of the de-duplication-overflow trace: `i+1` copies
of the letter a, so all names are distinct and none is "Unknown". -/
def cname (i : Nat) : String := String.mk (List.replicate (i + 1) 'a')

/-- A record carrying only a geolocated country (no coordinates, no ASN, an
event kind outside the four dispatched ones). -/
def countryRec (c : String) : Record :=
  { emptyRecord with geoLocation := some ⟨some c, none, none, none⟩ }

/-- The de-duplication-overflow trace: 21 records each for 500 distinct
countries (each country alerts once, filling the capacity-500
already-alerted-countries set), then 23 records for a 501st country.  Its
first record triggers the country-counter eviction; the remaining 22 drive its
count past the threshold twice while the full alerted set can no longer store
it, so it alerts twice. -/
def c3Trace : List Record :=
  ((List.range 500).flatMap (fun i => List.replicate 21 (countryRec (cname i))))
    ++ List.replicate 23 (countryRec (cname 500))

/-! ## Association-list and bounded-structure lemmas -/

section SortLemmas

variable {α : Type}

theorem stableInsert_perm (le : α → α → Bool) (a : α) (l : List α) :
    (stableInsert le a l).Perm (a :: l) := by
  induction l with
  | nil => exact List.Perm.refl _
  | cons b l ih =>
    simp only [stableInsert]
    split
    · exact ((ih.cons b).trans (List.Perm.swap a b l))
    · exact List.Perm.refl _

theorem stableSort_foldl_perm (le : α → α → Bool) (l acc : List α) :
    (l.foldl (fun acc a => stableInsert le a acc) acc).Perm (acc ++ l) := by
  induction l generalizing acc with
  | nil => simp
  | cons a l ih =>
    simp only [List.foldl_cons]
    refine (ih (stableInsert le a acc)).trans ?_
    refine (List.Perm.append_right l (stableInsert_perm le a acc)).trans ?_
    exact List.perm_middle.symm

theorem stableSort_perm (le : α → α → Bool) (l : List α) :
    (stableSort le l).Perm l := by
  simpa using stableSort_foldl_perm le l []

theorem length_stableSort (le : α → α → Bool) (l : List α) :
    (stableSort le l).length = l.length :=
  (stableSort_perm le l).length_eq

end SortLemmas

section AssocLemmas

variable {α : Type} [DecidableEq α]

theorem assocGet_not_mem (m : List (α × Nat)) (k : α) (h : k ∉ m.map Prod.fst) :
    assocGet m k = none := by
  induction m with
  | nil => rfl
  | cons p rest ih =>
    simp only [List.map_cons, List.mem_cons, not_or] at h
    simp only [assocGet]
    rw [if_neg (Ne.symm h.1)]
    exact ih h.2

theorem assocSet_not_mem (m : List (α × Nat)) (k : α) (v : Nat)
    (h : k ∉ m.map Prod.fst) : assocSet m k v = m ++ [(k, v)] := by
  induction m with
  | nil => rfl
  | cons p rest ih =>
    simp only [List.map_cons, List.mem_cons, not_or] at h
    simp only [assocSet]
    rw [if_neg (Ne.symm h.1), ih h.2]
    rfl

theorem keys_assocSet_mem (m : List (α × Nat)) (k : α) (v : Nat)
    (h : k ∈ m.map Prod.fst) : (assocSet m k v).map Prod.fst = m.map Prod.fst := by
  induction m with
  | nil => simp at h
  | cons p rest ih =>
    by_cases he : p.1 = k
    · simp only [assocSet]
      rw [if_pos he]
      simp [he]
    · simp only [List.map_cons, List.mem_cons] at h
      rcases h with h | h
      · exact absurd h.symm he
      · simp only [assocSet]
        rw [if_neg he]
        simp only [List.map_cons, ih h]

theorem keys_assocSet_nodup (m : List (α × Nat)) (k : α) (v : Nat)
    (h : (m.map Prod.fst).Nodup) : ((assocSet m k v).map Prod.fst).Nodup := by
  by_cases hk : k ∈ m.map Prod.fst
  · rw [keys_assocSet_mem m k v hk]; exact h
  · rw [assocSet_not_mem m k v hk]
    simp only [List.map_append, List.map_cons, List.map_nil]
    refine List.Nodup.append h (List.nodup_singleton k) ?_
    intro a ha hb
    rw [List.mem_singleton] at hb
    subst hb
    exact hk ha

theorem length_assocSet_le (m : List (α × Nat)) (k : α) (v : Nat) :
    (assocSet m k v).length ≤ m.length + 1 := by
  induction m with
  | nil => simp [assocSet]
  | cons p rest ih =>
    by_cases he : p.1 = k
    · simp [assocSet, if_pos he]
    · simp only [assocSet, if_neg he, List.length_cons]
      omega

/-- Deleting a nodup batch of present keys from a dict with nodup keys removes
exactly that many entries. -/
theorem length_filter_not_mem_keys (m : List (α × Nat)) (ks : List α)
    (hm : (m.map Prod.fst).Nodup) (hks : ks.Nodup)
    (hsub : ∀ k ∈ ks, k ∈ m.map Prod.fst) :
    (m.filter (fun p => decide (p.1 ∉ ks))).length = m.length - ks.length := by
  have hcount : m.countP (fun p => decide (p.1 ∈ ks)) = ks.length := by
    rw [List.countP_eq_length_filter]
    have hmap : (m.filter (fun p => decide (p.1 ∈ ks))).length
        = ((m.map Prod.fst).filter (fun k => decide (k ∈ ks))).length := by
      rw [← List.countP_eq_length_filter, ← List.countP_eq_length_filter,
        List.countP_map]
      rfl
    rw [hmap]
    have hnodupF : ((m.map Prod.fst).filter (fun k => decide (k ∈ ks))).Nodup :=
      hm.filter _
    have h1 : ((m.map Prod.fst).filter (fun k => decide (k ∈ ks))) ⊆ ks := by
      intro a ha
      have := List.mem_filter.mp ha
      simpa using this.2
    have h2 : ks ⊆ ((m.map Prod.fst).filter (fun k => decide (k ∈ ks))) := by
      intro a ha
      exact List.mem_filter.mpr ⟨hsub a ha, by simpa using ha⟩
    exact ((hnodupF.subperm h1).antisymm (hks.subperm h2)).length_eq
  have hsplit := List.length_eq_countP_add_countP (fun p => decide (p.1 ∈ ks)) m
  have hfun : (fun p : α × Nat => decide (p.1 ∉ ks))
      = (fun a : α × Nat => decide (¬ decide (a.1 ∈ ks) = true)) := by
    funext p
    simp
  have hpred : (m.filter (fun p => decide (p.1 ∉ ks))).length
      = m.countP (fun a => decide (¬ decide (a.1 ∈ ks) = true)) := by
    rw [← List.countP_eq_length_filter, hfun]
  omega

end AssocLemmas

/-! ## BoundedCounter lemmas -/

namespace BoundedCounter

variable {α : Type} [DecidableEq α]

theorem maybeEvict_id (c : BoundedCounter α) (h : ¬ c.data.length > c.maxsize) :
    c.maybeEvict = c := by
  simp only [maybeEvict, if_neg h]

theorem maybeEvict_keys_nodup (c : BoundedCounter α)
    (h : (c.data.map Prod.fst).Nodup) : ((c.maybeEvict).data.map Prod.fst).Nodup := by
  unfold maybeEvict
  split
  · exact (((List.filter_sublist c.data).map Prod.fst).nodup h)
  · exact h

/-- At size `maxsize + 1`, `_maybe_evict` removes exactly `max 1 (maxsize / 10)`
entries. -/
theorem maybeEvict_size_over (c : BoundedCounter α)
    (hnd : (c.data.map Prod.fst).Nodup) (hover : c.data.length = c.maxsize + 1) :
    (c.maybeEvict).size = c.maxsize + 1 - max 1 (c.maxsize / 10) := by
  have hgt : c.data.length > c.maxsize := by omega
  unfold maybeEvict size
  rw [if_pos hgt]
  have hperm : ((stableSort (fun a b => a.2 ≤ b.2) c.data).map Prod.fst).Perm
      (c.data.map Prod.fst) := (stableSort_perm _ c.data).map Prod.fst
  have hsortnd : ((stableSort (fun a b => a.2 ≤ b.2) c.data).map Prod.fst).Nodup :=
    (hperm.nodup_iff).mpr hnd
  have hlen : ((stableSort (fun a b => a.2 ≤ b.2) c.data).map Prod.fst).length
      = c.maxsize + 1 := by
    rw [List.length_map, length_stableSort, hover]
  set e := max 1 (c.maxsize / 10) with he
  have hele : e ≤ c.maxsize + 1 := by
    have : c.maxsize / 10 ≤ c.maxsize := Nat.div_le_self _ _
    omega
  have htake := List.take_sublist e
    ((stableSort (fun a b => a.2 ≤ b.2) c.data).map Prod.fst)
  have hknd : (((stableSort (fun a b => a.2 ≤ b.2) c.data).map Prod.fst).take e).Nodup :=
    htake.nodup hsortnd
  have hksub : ∀ k ∈ ((stableSort (fun a b => a.2 ≤ b.2) c.data).map Prod.fst).take e,
      k ∈ c.data.map Prod.fst := by
    intro k hk
    exact hperm.subset (htake.subset hk)
  have hklen : (((stableSort (fun a b => a.2 ≤ b.2) c.data).map Prod.fst).take e).length
      = e := by
    rw [List.length_take, hlen]
    omega
  rw [length_filter_not_mem_keys c.data _ hnd hknd hksub, hklen, hover]

theorem increment_keys_nodup (c : BoundedCounter α) (k : α)
    (h : (c.data.map Prod.fst).Nodup) :
    (((c.increment k).2).data.map Prod.fst).Nodup := by
  unfold increment
  exact maybeEvict_keys_nodup _ (keys_assocSet_nodup _ _ _ h)

/-- After any increment on a counter within capacity (with distinct keys, as
every reachable dict has), the size stays within capacity. -/
theorem increment_size_le (c : BoundedCounter α) (k : α)
    (hnd : (c.data.map Prod.fst).Nodup) (hle : c.size ≤ c.maxsize) :
    ((c.increment k).2).size ≤ c.maxsize := by
  have hstep : (c.increment k).2
      = BoundedCounter.maybeEvict ⟨assocSet c.data k ((assocGet c.data k).getD 0 + 1),
          c.maxsize⟩ := rfl
  rw [hstep]
  unfold size at hle
  set m := assocSet c.data k ((assocGet c.data k).getD 0 + 1) with hm
  have hlen : m.length ≤ c.data.length + 1 := length_assocSet_le _ _ _
  by_cases hover : m.length > c.maxsize
  · have hexact : m.length = c.maxsize + 1 := by omega
    have hres := maybeEvict_size_over (α := α) ⟨m, c.maxsize⟩
      (keys_assocSet_nodup _ _ _ hnd) hexact
    rw [hres]
    show c.maxsize + 1 - max 1 (c.maxsize / 10) ≤ c.maxsize
    have : 1 ≤ max 1 (c.maxsize / 10) := le_max_left _ _
    omega
  · rw [maybeEvict_id ⟨m, c.maxsize⟩ hover]
    show m.length ≤ c.maxsize
    omega

/-- Incrementing fresh distinct keys below capacity simply appends them with
count 1. -/
theorem incrementAll_fresh (keys : List α) (c : BoundedCounter α)
    (hnd : keys.Nodup) (hfresh : ∀ k ∈ keys, k ∉ c.data.map Prod.fst)
    (hlen : c.data.length + keys.length ≤ c.maxsize) :
    incrementAll c keys = ⟨c.data ++ keys.map (fun k => (k, 1)), c.maxsize⟩ := by
  induction keys generalizing c with
  | nil => simp [incrementAll]
  | cons k rest ih =>
    have hkfresh : k ∉ c.data.map Prod.fst := hfresh k (List.mem_cons_self k rest)
    have hget : assocGet c.data k = none := assocGet_not_mem _ _ hkfresh
    have hset : assocSet c.data k ((assocGet c.data k).getD 0 + 1)
        = c.data ++ [(k, 1)] := by
      rw [hget]
      exact assocSet_not_mem _ _ _ hkfresh
    have hL1 : (c.data ++ [(k, 1)]).length = c.data.length + 1 := by simp
    have hL2 : (k :: rest).length = rest.length + 1 := rfl
    have hnoev : ¬ (c.data ++ [(k, 1)]).length > c.maxsize := by omega
    have hstep : (c.increment k).2 = ⟨c.data ++ [(k, 1)], c.maxsize⟩ := by
      have hrfl : (c.increment k).2
          = BoundedCounter.maybeEvict ⟨assocSet c.data k ((assocGet c.data k).getD 0 + 1),
              c.maxsize⟩ := rfl
      rw [hrfl, hset]
      exact maybeEvict_id ⟨c.data ++ [(k, 1)], c.maxsize⟩ hnoev
    have hrest : incrementAll c (k :: rest) = incrementAll ⟨c.data ++ [(k, 1)], c.maxsize⟩ rest := by
      simp only [incrementAll, List.foldl_cons, hstep]
    rw [hrest, ih ⟨c.data ++ [(k, 1)], c.maxsize⟩ (hnd.of_cons)]
    · simp
    · intro k' hk'
      simp only [List.map_append, List.map_cons, List.map_nil, List.mem_append,
        List.mem_singleton, not_or]
      constructor
      · exact hfresh k' (List.mem_cons_of_mem _ hk')
      · intro he
        have hknr : k ∉ rest := (List.nodup_cons.mp hnd).1
        subst he
        exact hknr hk'
    · show (c.data ++ [(k, 1)]).length + rest.length ≤ c.maxsize
      omega

end BoundedCounter

/-! ## Claim theorems: bounded structures -/

/-- C1 counterexample: with capacity 10, inserting 11 distinct keys one
increment each triggers an eviction after which the size is 10, not
`10 - max 1 (10 / 10) = 9` as the claim states. -/
theorem C1_counterexample : c1Run.size = 10 ∧ ¬ (c1Run.size = 10 - max 1 (10 / 10)) := by
  decide

/-- C1 (amended): for a BoundedCounter with capacity C and distinct keys
inserted one increment each, the first C inserts leave the size exactly at the
number of inserts (no eviction), the (C+1)-st insert (the first making the size
exceed C) triggers an eviction after which the size equals
`C + 1 - max 1 (C / 10)`; and any increment on an in-capacity counter with
distinct keys returns with the size still at most the capacity. -/
theorem C1_bounded_counter_capacity {α : Type} [DecidableEq α]
    (C : Nat) (keys : List α) (hnd : keys.Nodup) (hlen : keys.length = C + 1) :
    (∀ j, j ≤ C → (BoundedCounter.incrementAll ⟨[], C⟩ (keys.take j)).size = j)
    ∧ (BoundedCounter.incrementAll ⟨[], C⟩ keys).size = C + 1 - max 1 (C / 10)
    ∧ (∀ (c : BoundedCounter α) (k : α), (c.data.map Prod.fst).Nodup →
        c.size ≤ c.maxsize → ((c.increment k).2).size ≤ c.maxsize) := by
  refine ⟨?_, ?_, fun c k h1 h2 => BoundedCounter.increment_size_le c k h1 h2⟩
  · intro j hj
    rw [BoundedCounter.incrementAll_fresh (keys.take j) _ (hnd.sublist (List.take_sublist j keys))
      (by intro k _; simp) (by simp only [List.nil_append, List.length_nil, List.length_take]; omega)]
    simp only [BoundedCounter.size, List.nil_append, List.length_map, List.length_take]
    omega
  · have hsplit : keys = keys.take C ++ keys.drop C := (List.take_append_drop C keys).symm
    have hdlen : (keys.drop C).length = 1 := by
      rw [List.length_drop, hlen]; omega
    obtain ⟨klast, hklast⟩ : ∃ k, keys.drop C = [k] := by
      match hd : keys.drop C with
      | [] => rw [hd] at hdlen; simp at hdlen
      | [k] => exact ⟨k, rfl⟩
      | k :: k' :: rest => rw [hd] at hdlen; simp at hdlen
    have hrun : BoundedCounter.incrementAll ⟨[], C⟩ keys
        = (((BoundedCounter.incrementAll ⟨[], C⟩ (keys.take C))).increment klast).2 := by
      conv_lhs => rw [hsplit, hklast]
      simp [BoundedCounter.incrementAll, List.foldl_append]
    have htake : BoundedCounter.incrementAll ⟨[], C⟩ (keys.take C)
        = ⟨(keys.take C).map (fun k => (k, 1)), C⟩ := by
      rw [BoundedCounter.incrementAll_fresh (keys.take C) _ (hnd.sublist (List.take_sublist C keys))
        (by intro k _; simp) (by simp only [List.length_nil, List.length_take]; omega)]
      simp
    have hkeysmap : ((keys.take C).map (fun k => (k, 1))).map Prod.fst = keys.take C := by
      rw [List.map_map]
      have hid : (Prod.fst ∘ fun k : α => (k, (1 : Nat))) = id := rfl
      rw [hid, List.map_id]
    have hfreshlast : klast ∉ keys.take C := by
      have hnd2 : (keys.take C ++ [klast]).Nodup := by
        rw [← hklast, List.take_append_drop]; exact hnd
      have := List.disjoint_of_nodup_append hnd2
      intro hmem
      exact this hmem (List.mem_singleton_self klast)
    have hget : assocGet ((keys.take C).map (fun k => (k, 1))) klast = none := by
      apply assocGet_not_mem
      rw [hkeysmap]; exact hfreshlast
    have hset : assocSet ((keys.take C).map (fun k => (k, 1))) klast
        ((assocGet ((keys.take C).map (fun k => (k, 1))) klast).getD 0 + 1)
        = ((keys.take C).map (fun k => (k, 1))) ++ [(klast, 1)] := by
      rw [hget]
      apply assocSet_not_mem
      rw [hkeysmap]; exact hfreshlast
    rw [hrun, htake]
    unfold BoundedCounter.increment
    simp only [hset]
    have htlen : (keys.take C).length = C := by
      rw [List.length_take, hlen]; omega
    have hndfull : ((((keys.take C).map (fun k => (k, 1))) ++ [(klast, 1)]).map Prod.fst).Nodup := by
      simp only [List.map_append, List.map_cons, List.map_nil, hkeysmap]
      refine List.Nodup.append (hnd.sublist (List.take_sublist C keys))
        (List.nodup_singleton klast) ?_
      intro a ha hb
      rw [List.mem_singleton] at hb
      subst hb
      exact hfreshlast ha
    have := BoundedCounter.maybeEvict_size_over (α := α)
      ⟨((keys.take C).map (fun k => (k, 1))) ++ [(klast, 1)], C⟩ hndfull
      (by simp only [List.length_append, List.length_map, List.length_singleton, htlen])
    simpa using this

/-- C1 witness: the amended theorem applied at capacity 10 with the eleven
distinct keys of `c1Keys`. -/
theorem C1_bounded_counter_capacity_witness :
    c1Keys.Nodup ∧ c1Run.size = 10 + 1 - max 1 (10 / 10) :=
  ⟨by decide, (C1_bounded_counter_capacity 10 c1Keys (by decide) (by decide)).2.1⟩

/-- C4 counterexample: on a full capacity-1 set holding "a", adding "b" twice
is not the same as adding "b" once — each add bumps the overflow count. -/
theorem C4_counterexample : ¬ ((c4Full.add "b").add "b" = c4Full.add "b") := by
  decide

/-- C4 (amended): `Add` is idempotent for every item that ends up stored —
either already present or added while below capacity.  For a novel item on a
full set each `Add` increments the overflow count, so idempotence fails there. -/
theorem C4_add_idempotent_when_stored {α : Type} [DecidableEq α]
    (s : BoundedSet α) (x : α) (h : x ∈ s.data ∨ s.data.length < s.maxsize) :
    (s.add x).add x = s.add x := by
  by_cases hx : x ∈ s.data
  · have h1 : s.add x = s := by simp [BoundedSet.add, if_pos hx]
    rw [h1]
    exact h1
  · have hlt : s.data.length < s.maxsize := h.resolve_left hx
    have h1 : s.add x = { s with data := s.data ++ [x] } := by
      simp [BoundedSet.add, if_neg hx, if_pos hlt]
    rw [h1]
    have hx2 : x ∈ s.data ++ [x] := by simp
    simp [BoundedSet.add, if_pos hx2]

/-- C4 witness: idempotence of re-adding the stored item "a" on a capacity-1
set holding "a". -/
theorem C4_add_idempotent_when_stored_witness :
    ("a" ∈ c4Full.data ∨ c4Full.data.length < c4Full.maxsize)
    ∧ (c4Full.add "a").add "a" = c4Full.add "a" :=
  ⟨by decide, C4_add_idempotent_when_stored c4Full "a" (by decide)⟩

/-- C7: with capacity 2, adding "a","b","c","a" yields stored size 2, total
seen 3, and "c" is not contained. -/
theorem C7_bounded_set_overflow :
    c7Set.size = 2 ∧ c7Set.totalSeen = 3 ∧ ¬ c7Set.mem "c" := by
  decide

/-- C10: on a capacity-2 counter holding two keys with count 2 each (built by
increments), incrementing the fresh key "c" returns 1, yet the eviction
triggered by that call removes "c" itself, so `get "c"` then returns 0. -/
theorem C10_increment_pre_eviction_report :
    c10State.size = c10State.maxsize
    ∧ (∀ p ∈ c10State.data, 2 ≤ p.2)
    ∧ (c10State.increment "c").1 = 1
    ∧ ((c10State.increment "c").2).get "c" = 0 := by
  decide

/-! ## Alert-rule lemmas -/

theorem alertRuleHighFreq_category (s : MonitorState) (e : Record) :
    ∀ ev ∈ (alertRuleHighFreq s e).2, ev.category = AlertCategory.highFreq := by
  unfold alertRuleHighFreq
  dsimp only
  split <;> simp

theorem alertRuleLongPassword_category (s : MonitorState) (e : Record) :
    ∀ ev ∈ (alertRuleLongPassword s e).2, ev.category = AlertCategory.longPassword := by
  unfold alertRuleLongPassword
  dsimp only
  split <;> simp

theorem alertRuleCountry_category (s : MonitorState) (e : Record) :
    ∀ ev ∈ (alertRuleCountry s e).2, ev.category = AlertCategory.countryVolume := by
  unfold alertRuleCountry
  rcases e.geoLocation with _ | geo
  · simp
  · dsimp only
    split <;> simp

theorem alertRuleOrg_category (s : MonitorState) (e : Record) :
    ∀ ev ∈ (alertRuleOrg s e).2, ev.category = AlertCategory.orgVolume := by
  unfold alertRuleOrg
  rcases recOrgOpt e with _ | org
  · simp
  · dsimp only
    split <;> simp

theorem alertRuleLongPassword_events (s : MonitorState) (e : Record) :
    (alertRuleLongPassword s e).2
      = if e.eventid = some "cowrie.login.success" ∧ e.password.getD "" ≠ ""
            ∧ (e.password.getD "").length > 20
        then [⟨AlertCategory.longPassword, e.srcIp.getD ""⟩] else [] := by
  unfold alertRuleLongPassword
  dsimp only
  split <;> rfl

theorem checkAlerts_events (s : MonitorState) (e : Record) :
    (checkAlerts s e).2
      = (alertRuleHighFreq s e).2
        ++ ((alertRuleLongPassword (alertRuleHighFreq s e).1 e).2
        ++ ((alertRuleCountry (alertRuleLongPassword (alertRuleHighFreq s e).1 e).1 e).2
        ++ (alertRuleOrg (alertRuleCountry
              (alertRuleLongPassword (alertRuleHighFreq s e).1 e).1 e).1 e).2)) := by
  unfold checkAlerts
  simp [List.append_assoc]

theorem updateStats_events (g a : Record → Record) (s : MonitorState) (r : Record) :
    (updateStats g a s r).2
      = (checkAlerts (statsPhase s r.eventid r.srcIp (a (g r))) (a (g r))).2 := rfl

theorem countP_zero_of_other_category (evs : List AlertEvent) (c c' : AlertCategory)
    (hne : c ≠ c') (hall : ∀ ev ∈ evs, ev.category = c) :
    evs.countP (fun e => e.category = c') = 0 := by
  rw [List.countP_eq_zero]
  intro ev hv
  simp only [decide_eq_true_eq]
  rw [hall ev hv]
  exact hne

/-! ## Claim theorems: monitor -/

/-- C5: from a fresh aggregate, ten connect records from one address emit no
alert; eleven emit exactly one HIGH high-frequency alert (so it is emitted
while processing the eleventh record, where the post-increment count 11 first
exceeds the strict threshold 10); a twelfth record adds no further alert of
that kind. -/
theorem C5_high_frequency_dedup :
    (c5Run 10).2 = []
    ∧ (c5Run 11).2 = [⟨AlertCategory.highFreq, "1.2.3.4"⟩]
    ∧ (c5Run 11).1.alerts.items
        = [mkAlert "HIGH" "High frequency attacks from 1.2.3.4" connRec]
    ∧ (c5Run 11).1.topIps.get (some "1.2.3.4") = 11
    ∧ (c5Run 12).2 = [⟨AlertCategory.highFreq, "1.2.3.4"⟩] := by
  decide

/-- C6: the long-password rule is un-deduplicated with a strict threshold: any
login-succeeded record whose password is longer than 20 characters emits
exactly one MEDIUM long-password alert and one of exactly 20 emits none (for
any aggregate state); concretely, two records with a 21-character password
emit two MEDIUM alerts, and one record with a 20-character password emits
nothing. -/
theorem C6_long_password_rule :
    (∀ (s : MonitorState) (r : Record) (p : String),
      r.eventid = some "cowrie.login.success" → r.password = some p →
      ((updateStats id id s r).2.countP
          (fun e => e.category = AlertCategory.longPassword))
        = if p.length > 20 then 1 else 0)
    ∧ (runUpdates id id (initMonitorState defaultConfig) [lpRec pw21, lpRec pw21]).2
        = [⟨AlertCategory.longPassword, "9.9.9.9"⟩, ⟨AlertCategory.longPassword, "9.9.9.9"⟩]
    ∧ ((runUpdates id id (initMonitorState defaultConfig) [lpRec pw21, lpRec pw21]).1.alerts.items.map
        Alert.level) = ["MEDIUM", "MEDIUM"]
    ∧ (runUpdates id id (initMonitorState defaultConfig) [lpRec pw20]).2 = [] := by
  refine ⟨?_, by decide, by decide, by decide⟩
  intro s r p hev hpw
  rw [updateStats_events, checkAlerts_events]
  simp only [id_eq, List.countP_append]
  have h1 := countP_zero_of_other_category _ _ AlertCategory.longPassword
    (by simp) (alertRuleHighFreq_category (statsPhase s r.eventid r.srcIp r) r)
  have h3 := countP_zero_of_other_category _ _ AlertCategory.longPassword
    (by simp) (alertRuleCountry_category
      (alertRuleLongPassword (alertRuleHighFreq (statsPhase s r.eventid r.srcIp r) r).1 r).1 r)
  have h4 := countP_zero_of_other_category _ _ AlertCategory.longPassword
    (by simp) (alertRuleOrg_category
      (alertRuleCountry (alertRuleLongPassword
        (alertRuleHighFreq (statsPhase s r.eventid r.srcIp r) r).1 r).1 r).1 r)
  rw [h1, h3, h4, alertRuleLongPassword_events]
  by_cases hlen : p.length > 20
  · have hne : p ≠ "" := by
      intro he
      rw [he] at hlen
      simp at hlen
    rw [if_pos ⟨hev, by simp only [hpw, Option.getD_some]; exact ⟨hne, hlen⟩⟩, if_pos hlen]
    simp
  · have hnc : ¬ (r.eventid = some "cowrie.login.success" ∧ r.password.getD "" ≠ ""
        ∧ (r.password.getD "").length > 20) := by
      rw [hpw]
      simp only [Option.getD_some]
      intro hcond
      exact hlen hcond.2.2
    rw [if_neg hnc, if_neg hlen]
    simp

/-- C8: with a saved offset of 100 and a current file size of 40, the next
poll detects rotation, resets the saved offset to 0, and the read consumes the
file from the start of its current content (ending at offset 40). -/
theorem C8_rotation_detection (ts : TailState) (f : FileState)
    (hpos : ts.lastPosition = 100) (hsize : f.content.length = 40) :
    (detectLogRotation ts (some ⟨f.inode, f.content.length⟩)).1 = true
    ∧ (detectLogRotation ts (some ⟨f.inode, f.content.length⟩)).2.lastPosition = 0
    ∧ (pollIteration ts f).1 = splitLines f.content
    ∧ (pollIteration ts f).2.lastPosition = 40 := by
  refine ⟨?_, ?_, ?_, ?_⟩ <;>
    simp [detectLogRotation, pollIteration, hpos, hsize]

/-- C8 witness: the rotation theorem at a concrete tail state (offset 100,
known inode 7) and a concrete 40-byte file. -/
theorem C8_rotation_detection_witness :
    c8Tail.lastPosition = 100 ∧ c8File.content.length = 40
    ∧ (detectLogRotation c8Tail (some ⟨c8File.inode, c8File.content.length⟩)).1 = true
    ∧ (detectLogRotation c8Tail (some ⟨c8File.inode, c8File.content.length⟩)).2.lastPosition = 0
    ∧ (pollIteration c8Tail c8File).1 = splitLines c8File.content
    ∧ (pollIteration c8Tail c8File).2.lastPosition = 40 := by
  have h := C8_rotation_detection c8Tail c8File (by decide) (by decide)
  exact ⟨by decide, by decide, h.1, h.2.1, h.2.2.1, h.2.2.2⟩

/-- C9: `_update_asn_stats` touches only the organization counter, the ASN
counter and the dirty flag: every other field of the aggregate is unchanged,
for every record and state. -/
theorem C9_update_asn_stats_frame (s : MonitorState) (r : Record) :
    (updateAsnStats s r).totalConnections = s.totalConnections
    ∧ (updateAsnStats s r).failedLogins = s.failedLogins
    ∧ (updateAsnStats s r).successfulLogins = s.successfulLogins
    ∧ (updateAsnStats s r).commandsExecuted = s.commandsExecuted
    ∧ (updateAsnStats s r).uniqueIps = s.uniqueIps
    ∧ (updateAsnStats s r).uniquePasswords = s.uniquePasswords
    ∧ (updateAsnStats s r).uniqueUsers = s.uniqueUsers
    ∧ (updateAsnStats s r).recentAttacks = s.recentAttacks
    ∧ (updateAsnStats s r).topIps = s.topIps
    ∧ (updateAsnStats s r).topPasswords = s.topPasswords
    ∧ (updateAsnStats s r).topUsers = s.topUsers
    ∧ (updateAsnStats s r).topCommands = s.topCommands
    ∧ (updateAsnStats s r).attackTimeline = s.attackTimeline
    ∧ (updateAsnStats s r).countries = s.countries
    ∧ (updateAsnStats s r).mapMarkers = s.mapMarkers
    ∧ (updateAsnStats s r).mapHeatpoints = s.mapHeatpoints
    ∧ (updateAsnStats s r).alerts = s.alerts
    ∧ (updateAsnStats s r).alertedIps = s.alertedIps
    ∧ (updateAsnStats s r).alertedCountries = s.alertedCountries
    ∧ (updateAsnStats s r).alertedOrgs = s.alertedOrgs
    ∧ (updateAsnStats s r).statsCache = s.statsCache
    ∧ (updateAsnStats s r).statsCacheTime = s.statsCacheTime
    ∧ (updateAsnStats s r).enrichQueue = s.enrichQueue
    ∧ (updateAsnStats s r).enrichQueueLen = s.enrichQueueLen
    ∧ (updateAsnStats s r).enrichQueueCap = s.enrichQueueCap := by
  unfold updateAsnStats
  rcases r.asnInfo with _ | ⟨asn, org⟩
  · exact ⟨rfl, rfl, rfl, rfl, rfl, rfl, rfl, rfl, rfl, rfl, rfl, rfl, rfl,
      rfl, rfl, rfl, rfl, rfl, rfl, rfl, rfl, rfl, rfl, rfl, rfl⟩
  · rcases org with _ | org <;> rcases asn with _ | asn <;> dsimp only <;>
      first
        | (split_ifs <;>
            exact ⟨rfl, rfl, rfl, rfl, rfl, rfl, rfl, rfl, rfl, rfl, rfl, rfl, rfl,
              rfl, rfl, rfl, rfl, rfl, rfl, rfl, rfl, rfl, rfl, rfl, rfl⟩)
        | exact ⟨rfl, rfl, rfl, rfl, rfl, rfl, rfl, rfl, rfl, rfl, rfl, rfl, rfl,
            rfl, rfl, rfl, rfl, rfl, rfl, rfl, rfl, rfl, rfl, rfl, rfl⟩

/-- C2 counterexample: on an aggregate with one successful and no failed
logins, the computed snapshot's success rate is 100 (a percentage), not
`1 / max(1, 1) = 1` as the claim's formula states. -/
theorem C2_counterexample :
    (computeSummary c2State).successRate
      ≠ specSuccessRate c2State.successfulLogins c2State.failedLogins := by
  norm_num [computeSummary, specSuccessRate, c2State, initMonitorState, defaultConfig]

/-- C2 (amended): the snapshot's derived success rate equals
`100 * succeeded / max(1, succeeded + failed)` — the claimed ratio expressed
as a percentage — for every aggregate state; and whenever the aggregate is
dirty, `get_stats_summary` returns exactly this freshly computed snapshot. -/
theorem C2_success_rate_percent (s : MonitorState) (ttl now : ℚ)
    (hdirty : s.statsDirty = true) :
    (computeSummary s).successRate
      = 100 * specSuccessRate s.successfulLogins s.failedLogins
    ∧ (getStatsSummary ttl now s).1 = computeSummary s := by
  constructor
  · unfold computeSummary specSuccessRate
    rw [Nat.add_comm s.failedLogins s.successfulLogins]
    ring
  · unfold getStatsSummary
    rcases s.statsCache with _ | cached
    · rfl
    · simp [hdirty]

/-- C2 witness: the amended theorem at the one-successful-login state (which
is dirty), with both sides evaluated. -/
theorem C2_success_rate_percent_witness :
    c2State.statsDirty = true
    ∧ (computeSummary c2State).successRate
        = 100 * specSuccessRate c2State.successfulLogins c2State.failedLogins
    ∧ (getStatsSummary 2 1 c2State).1 = computeSummary c2State :=
  ⟨by decide, (C2_success_rate_percent c2State 2 1 (by decide)).1,
    (C2_success_rate_percent c2State 2 1 (by decide)).2⟩

/-- C6 witness: the general long-password rule applied to a concrete
successful login with the 21-character password, from a fresh aggregate. -/
theorem C6_long_password_rule_witness :
    (lpRec pw21).eventid = some "cowrie.login.success"
    ∧ (lpRec pw21).password = some pw21
    ∧ ((updateStats id id (initMonitorState defaultConfig) (lpRec pw21)).2.countP
        (fun e => e.category = AlertCategory.longPassword))
      = if pw21.length > 20 then 1 else 0 :=
  ⟨by decide, by decide,
    C6_long_password_rule.1 (initMonitorState defaultConfig) (lpRec pw21) pw21
      (by decide) (by decide)⟩

/-! ## BoundedSet and run-structure lemmas for alert de-duplication -/

theorem BoundedSet.add_data_append {α : Type} [DecidableEq α]
    (s : BoundedSet α) (x : α) : ∃ l, (s.add x).data = s.data ++ l := by
  unfold add
  split_ifs
  · exact ⟨[], by simp⟩
  · exact ⟨[x], rfl⟩
  · exact ⟨[], by simp⟩

theorem BoundedSet.add_maxsize {α : Type} [DecidableEq α]
    (s : BoundedSet α) (x : α) : (s.add x).maxsize = s.maxsize := by
  unfold add
  split_ifs <;> rfl

theorem BoundedSet.mem_add_self {α : Type} [DecidableEq α]
    (s : BoundedSet α) (x : α) (h : s.data.length < s.maxsize) :
    x ∈ (s.add x).data := by
  unfold add
  split_ifs with h1
  · exact h1
  · simp

theorem BoundedSet.add_full {α : Type} [DecidableEq α]
    (s : BoundedSet α) (x : α) (hx : x ∉ s.data) (h : ¬ s.data.length < s.maxsize) :
    s.add x = ⟨s.data, s.maxsize, s.overflowCount + 1⟩ := by
  unfold add
  rw [if_neg hx, if_neg h]

theorem BoundedSet.add_stored {α : Type} [DecidableEq α]
    (s : BoundedSet α) (x : α) (hx : x ∉ s.data) (h : s.data.length < s.maxsize) :
    s.add x = ⟨s.data ++ [x], s.maxsize, s.overflowCount⟩ := by
  unfold add
  rw [if_neg hx, if_pos h]

theorem runUpdates_nil (g a : Record → Record) (s : MonitorState) :
    runUpdates g a s [] = (s, []) := rfl

theorem runUpdates_acc (g a : Record → Record) (rs : List Record) :
    ∀ (s : MonitorState) (acc : List AlertEvent),
    List.foldl (fun acc r =>
        ((updateStats g a acc.1 r).1, acc.2 ++ (updateStats g a acc.1 r).2)) (s, acc) rs
      = ((runUpdates g a s rs).1, acc ++ (runUpdates g a s rs).2) := by
  induction rs with
  | nil =>
    intro s acc
    rw [runUpdates_nil]
    simp
  | cons r rs ih =>
    intro s acc
    have hbr : runUpdates g a s (r :: rs)
        = ((runUpdates g a (updateStats g a s r).1 rs).1,
            (updateStats g a s r).2 ++ (runUpdates g a (updateStats g a s r).1 rs).2) := by
      have hdef : runUpdates g a s (r :: rs)
          = List.foldl (fun acc r =>
              ((updateStats g a acc.1 r).1, acc.2 ++ (updateStats g a acc.1 r).2))
            ((updateStats g a s r).1, [] ++ (updateStats g a s r).2) rs := rfl
      rw [hdef, ih]
      simp
    rw [List.foldl_cons]
    show List.foldl _ ((updateStats g a s r).1, acc ++ (updateStats g a s r).2) rs = _
    rw [ih, hbr]
    simp

theorem runUpdates_cons (g a : Record → Record) (s : MonitorState) (r : Record)
    (rs : List Record) :
    runUpdates g a s (r :: rs)
      = ((runUpdates g a (updateStats g a s r).1 rs).1,
          (updateStats g a s r).2 ++ (runUpdates g a (updateStats g a s r).1 rs).2) := by
  have hdef : runUpdates g a s (r :: rs)
      = List.foldl (fun acc r =>
          ((updateStats g a acc.1 r).1, acc.2 ++ (updateStats g a acc.1 r).2))
        ((updateStats g a s r).1, [] ++ (updateStats g a s r).2) rs := rfl
  rw [hdef, runUpdates_acc]
  simp

theorem runUpdates_append (g a : Record → Record) (s : MonitorState)
    (xs ys : List Record) :
    runUpdates g a s (xs ++ ys)
      = ((runUpdates g a (runUpdates g a s xs).1 ys).1,
          (runUpdates g a s xs).2 ++ (runUpdates g a (runUpdates g a s xs).1 ys).2) := by
  have hdef : runUpdates g a s (xs ++ ys)
      = List.foldl (fun acc r =>
          ((updateStats g a acc.1 r).1, acc.2 ++ (updateStats g a acc.1 r).2))
        (s, []) (xs ++ ys) := rfl
  have hdef2 : List.foldl (fun acc r =>
          ((updateStats g a acc.1 r).1, acc.2 ++ (updateStats g a acc.1 r).2))
        (s, []) xs = runUpdates g a s xs := rfl
  have heta : runUpdates g a s xs
      = ((runUpdates g a s xs).1, (runUpdates g a s xs).2) := rfl
  rw [hdef, List.foldl_append, hdef2, heta, runUpdates_acc]

/-! ## Frame lemmas: which state the stats phase and each rule can touch -/

theorem processLogin_frame (s : MonitorState) (e : Record) (b : Bool) :
    (processLogin s e b).alertedIps = s.alertedIps
    ∧ (processLogin s e b).alertedCountries = s.alertedCountries
    ∧ (processLogin s e b).alertedOrgs = s.alertedOrgs
    ∧ (processLogin s e b).countries = s.countries
    ∧ (processLogin s e b).organizations = s.organizations := by
  unfold processLogin
  dsimp only
  repeat' split
  all_goals exact ⟨rfl, rfl, rfl, rfl, rfl⟩

theorem dispatchStage_frame (s : MonitorState) (ev ip : Option String) (e : Record) :
    (dispatchStage s ev ip e).alertedIps = s.alertedIps
    ∧ (dispatchStage s ev ip e).alertedCountries = s.alertedCountries
    ∧ (dispatchStage s ev ip e).alertedOrgs = s.alertedOrgs
    ∧ (dispatchStage s ev ip e).countries = s.countries
    ∧ (dispatchStage s ev ip e).organizations = s.organizations := by
  unfold dispatchStage
  dsimp only
  repeat' split
  · exact ⟨rfl, rfl, rfl, rfl, rfl⟩
  · exact processLogin_frame s e false
  · exact processLogin_frame s e true
  all_goals exact ⟨rfl, rfl, rfl, rfl, rfl⟩

theorem mapStage_frame (s : MonitorState) (ev : Option String) (e : Record) :
    (mapStage s ev e).alertedIps = s.alertedIps
    ∧ (mapStage s ev e).alertedCountries = s.alertedCountries
    ∧ (mapStage s ev e).alertedOrgs = s.alertedOrgs
    ∧ (mapStage s ev e).countries = s.countries
    ∧ (mapStage s ev e).organizations = s.organizations := by
  unfold mapStage
  repeat (first | (dsimp only) | split)
  all_goals exact ⟨rfl, rfl, rfl, rfl, rfl⟩

theorem countryStage_frame (s : MonitorState) (e : Record) :
    (countryStage s e).alertedIps = s.alertedIps
    ∧ (countryStage s e).alertedCountries = s.alertedCountries
    ∧ (countryStage s e).alertedOrgs = s.alertedOrgs
    ∧ (countryStage s e).organizations = s.organizations := by
  unfold countryStage
  repeat (first | (dsimp only) | split)
  all_goals exact ⟨rfl, rfl, rfl, rfl⟩

theorem orgStage_frame (s : MonitorState) (e : Record) :
    (orgStage s e).alertedIps = s.alertedIps
    ∧ (orgStage s e).alertedCountries = s.alertedCountries
    ∧ (orgStage s e).alertedOrgs = s.alertedOrgs
    ∧ (orgStage s e).countries = s.countries := by
  unfold orgStage
  repeat (first | (dsimp only) | split)
  all_goals exact ⟨rfl, rfl, rfl, rfl⟩

theorem asnStage_frame (s : MonitorState) (e : Record) :
    (asnStage s e).alertedIps = s.alertedIps
    ∧ (asnStage s e).alertedCountries = s.alertedCountries
    ∧ (asnStage s e).alertedOrgs = s.alertedOrgs
    ∧ (asnStage s e).countries = s.countries
    ∧ (asnStage s e).organizations = s.organizations := by
  unfold asnStage
  repeat (first | (dsimp only) | split)
  all_goals exact ⟨rfl, rfl, rfl, rfl, rfl⟩

theorem timelineDirtyStage_frame (s : MonitorState) (ev ip : Option String) (e : Record) :
    (timelineDirtyStage s ev ip e).alertedIps = s.alertedIps
    ∧ (timelineDirtyStage s ev ip e).alertedCountries = s.alertedCountries
    ∧ (timelineDirtyStage s ev ip e).alertedOrgs = s.alertedOrgs
    ∧ (timelineDirtyStage s ev ip e).countries = s.countries
    ∧ (timelineDirtyStage s ev ip e).organizations = s.organizations :=
  ⟨rfl, rfl, rfl, rfl, rfl⟩

theorem statsPhase_alerted_frame (s : MonitorState) (ev ip : Option String) (e : Record) :
    (statsPhase s ev ip e).alertedIps = s.alertedIps
    ∧ (statsPhase s ev ip e).alertedCountries = s.alertedCountries
    ∧ (statsPhase s ev ip e).alertedOrgs = s.alertedOrgs := by
  unfold statsPhase
  refine ⟨?_, ?_, ?_⟩
  · rw [(timelineDirtyStage_frame _ _ _ _).1, (asnStage_frame _ _).1,
      (orgStage_frame _ _).1, (countryStage_frame _ _).1, (mapStage_frame _ _ _).1,
      (dispatchStage_frame _ _ _ _).1]
  · rw [(timelineDirtyStage_frame _ _ _ _).2.1, (asnStage_frame _ _).2.1,
      (orgStage_frame _ _).2.1, (countryStage_frame _ _).2.1, (mapStage_frame _ _ _).2.1,
      (dispatchStage_frame _ _ _ _).2.1]
  · rw [(timelineDirtyStage_frame _ _ _ _).2.2.1, (asnStage_frame _ _).2.2.1,
      (orgStage_frame _ _).2.2.1, (countryStage_frame _ _).2.2.1,
      (mapStage_frame _ _ _).2.2.1, (dispatchStage_frame _ _ _ _).2.2.1]

theorem enqueuePhase_alerted_frame (s : MonitorState) (e : Record) :
    (enqueuePhase s e).alertedIps = s.alertedIps
    ∧ (enqueuePhase s e).alertedCountries = s.alertedCountries
    ∧ (enqueuePhase s e).alertedOrgs = s.alertedOrgs
    ∧ (enqueuePhase s e).countries = s.countries := by
  unfold enqueuePhase enqueueRecord
  repeat' split
  all_goals exact ⟨rfl, rfl, rfl, rfl⟩

theorem alertRuleHighFreq_frame (s : MonitorState) (e : Record) :
    (alertRuleHighFreq s e).1.alertedCountries = s.alertedCountries
    ∧ (alertRuleHighFreq s e).1.alertedOrgs = s.alertedOrgs
    ∧ (alertRuleHighFreq s e).1.countries = s.countries
    ∧ (alertRuleHighFreq s e).1.organizations = s.organizations := by
  unfold alertRuleHighFreq
  dsimp only
  split <;> exact ⟨rfl, rfl, rfl, rfl⟩

theorem alertRuleLongPassword_frame (s : MonitorState) (e : Record) :
    (alertRuleLongPassword s e).1.alertedIps = s.alertedIps
    ∧ (alertRuleLongPassword s e).1.alertedCountries = s.alertedCountries
    ∧ (alertRuleLongPassword s e).1.alertedOrgs = s.alertedOrgs
    ∧ (alertRuleLongPassword s e).1.countries = s.countries
    ∧ (alertRuleLongPassword s e).1.organizations = s.organizations := by
  unfold alertRuleLongPassword
  dsimp only
  split <;> exact ⟨rfl, rfl, rfl, rfl, rfl⟩

theorem alertRuleCountry_frame (s : MonitorState) (e : Record) :
    (alertRuleCountry s e).1.alertedIps = s.alertedIps
    ∧ (alertRuleCountry s e).1.alertedOrgs = s.alertedOrgs
    ∧ (alertRuleCountry s e).1.countries = s.countries
    ∧ (alertRuleCountry s e).1.organizations = s.organizations := by
  unfold alertRuleCountry
  rcases e.geoLocation with _ | geo
  · exact ⟨rfl, rfl, rfl, rfl⟩
  · dsimp only
    split <;> exact ⟨rfl, rfl, rfl, rfl⟩

theorem alertRuleOrg_frame (s : MonitorState) (e : Record) :
    (alertRuleOrg s e).1.alertedIps = s.alertedIps
    ∧ (alertRuleOrg s e).1.alertedCountries = s.alertedCountries
    ∧ (alertRuleOrg s e).1.countries = s.countries
    ∧ (alertRuleOrg s e).1.organizations = s.organizations := by
  unfold alertRuleOrg
  rcases recOrgOpt e with _ | org
  · exact ⟨rfl, rfl, rfl, rfl⟩
  · dsimp only
    split <;> exact ⟨rfl, rfl, rfl, rfl⟩

/-! ## Own-set behavior of each de-duplicated rule -/

theorem alertRuleHighFreq_own (s : MonitorState) (e : Record) :
    (∃ l, (alertRuleHighFreq s e).1.alertedIps.data = s.alertedIps.data ++ l)
    ∧ (alertRuleHighFreq s e).1.alertedIps.maxsize = s.alertedIps.maxsize
    ∧ (∀ ev ∈ (alertRuleHighFreq s e).2,
        ev.key ∉ s.alertedIps.data
        ∧ (alertRuleHighFreq s e).1.alertedIps = s.alertedIps.add ev.key)
    ∧ (alertRuleHighFreq s e).2.length ≤ 1 := by
  unfold alertRuleHighFreq
  dsimp only
  split
  · rename_i h
    refine ⟨BoundedSet.add_data_append _ _, BoundedSet.add_maxsize _ _, ?_, by simp⟩
    intro ev hv
    simp only [List.mem_singleton] at hv
    subst hv
    exact ⟨h.2.2, rfl⟩
  · exact ⟨⟨[], by simp⟩, rfl, by simp, by simp⟩

theorem alertRuleCountry_own (s : MonitorState) (e : Record) :
    (∃ l, (alertRuleCountry s e).1.alertedCountries.data = s.alertedCountries.data ++ l)
    ∧ (alertRuleCountry s e).1.alertedCountries.maxsize = s.alertedCountries.maxsize
    ∧ (∀ ev ∈ (alertRuleCountry s e).2,
        ev.key ∉ s.alertedCountries.data
        ∧ (alertRuleCountry s e).1.alertedCountries = s.alertedCountries.add ev.key)
    ∧ (alertRuleCountry s e).2.length ≤ 1 := by
  unfold alertRuleCountry
  rcases e.geoLocation with _ | geo
  · exact ⟨⟨[], by simp⟩, rfl, by simp, by simp⟩
  · dsimp only
    split
    · rename_i h
      refine ⟨BoundedSet.add_data_append _ _, BoundedSet.add_maxsize _ _, ?_, by simp⟩
      intro ev hv
      simp only [List.mem_singleton] at hv
      subst hv
      exact ⟨h.2.2, rfl⟩
    · exact ⟨⟨[], by simp⟩, rfl, by simp, by simp⟩

theorem alertRuleOrg_own (s : MonitorState) (e : Record) :
    (∃ l, (alertRuleOrg s e).1.alertedOrgs.data = s.alertedOrgs.data ++ l)
    ∧ (alertRuleOrg s e).1.alertedOrgs.maxsize = s.alertedOrgs.maxsize
    ∧ (∀ ev ∈ (alertRuleOrg s e).2,
        ev.key ∉ s.alertedOrgs.data
        ∧ (alertRuleOrg s e).1.alertedOrgs = s.alertedOrgs.add ev.key)
    ∧ (alertRuleOrg s e).2.length ≤ 1 := by
  unfold alertRuleOrg
  rcases recOrgOpt e with _ | org
  · exact ⟨⟨[], by simp⟩, rfl, by simp, by simp⟩
  · dsimp only
    split
    · rename_i h
      refine ⟨BoundedSet.add_data_append _ _, BoundedSet.add_maxsize _ _, ?_, by simp⟩
      intro ev hv
      simp only [List.mem_singleton] at hv
      subst hv
      exact ⟨h.2.2, rfl⟩
    · exact ⟨⟨[], by simp⟩, rfl, by simp, by simp⟩

/-- The alerted long-password rule leaves nothing but the alert history:
restated here for the three alerted sets (part of its frame lemma). -/
theorem countP_eq_zero_of_category_ne (evs : List AlertEvent) (c : AlertCategory)
    (ck : AlertEvent) (hne : ck.category ≠ c) (hall : ∀ ev ∈ evs, ev.category = c) :
    evs.countP (fun e => e = ck) = 0 := by
  rw [List.countP_eq_zero]
  intro ev hv
  simp only [decide_eq_true_eq]
  intro he
  subst he
  exact hne (hall _ hv)

/-- The full state decomposition of one `update_stats` call. -/
theorem updateStats_state (g a : Record → Record) (s : MonitorState) (r : Record) :
    (updateStats g a s r).1
      = enqueuePhase
          (alertRuleOrg
            (alertRuleCountry
              (alertRuleLongPassword
                (alertRuleHighFreq (statsPhase s r.eventid r.srcIp (a (g r)))
                  (a (g r))).1
                (a (g r))).1
              (a (g r))).1
            (a (g r))).1
          (a (g r)) := rfl

/-! ## Per-category behavior of one whole `update_stats` call -/

theorem updateStats_alertedIps_mono (g a : Record → Record) (s : MonitorState)
    (r : Record) :
    (∃ l, (updateStats g a s r).1.alertedIps.data = s.alertedIps.data ++ l)
    ∧ (updateStats g a s r).1.alertedIps.maxsize = s.alertedIps.maxsize := by
  rw [updateStats_state]
  rw [(enqueuePhase_alerted_frame _ _).1, (alertRuleOrg_frame _ _).1,
    (alertRuleCountry_frame _ _).1, (alertRuleLongPassword_frame _ _).1]
  constructor
  · obtain ⟨l, hl⟩ :=
      (alertRuleHighFreq_own (statsPhase s r.eventid r.srcIp (a (g r))) (a (g r))).1
    rw [hl, (statsPhase_alerted_frame _ _ _ _).1]
    exact ⟨l, rfl⟩
  · rw [(alertRuleHighFreq_own _ _).2.1, (statsPhase_alerted_frame _ _ _ _).1]

theorem updateStats_alertedCountries_mono (g a : Record → Record) (s : MonitorState)
    (r : Record) :
    (∃ l, (updateStats g a s r).1.alertedCountries.data = s.alertedCountries.data ++ l)
    ∧ (updateStats g a s r).1.alertedCountries.maxsize = s.alertedCountries.maxsize := by
  rw [updateStats_state]
  rw [(enqueuePhase_alerted_frame _ _).2.1, (alertRuleOrg_frame _ _).2.1]
  constructor
  · obtain ⟨l, hl⟩ := (alertRuleCountry_own (alertRuleLongPassword
      (alertRuleHighFreq (statsPhase s r.eventid r.srcIp (a (g r))) (a (g r))).1
        (a (g r))).1 (a (g r))).1
    rw [hl, (alertRuleLongPassword_frame _ _).2.1, (alertRuleHighFreq_frame _ _).1,
      (statsPhase_alerted_frame _ _ _ _).2.1]
    exact ⟨l, rfl⟩
  · rw [(alertRuleCountry_own _ _).2.1, (alertRuleLongPassword_frame _ _).2.1,
      (alertRuleHighFreq_frame _ _).1, (statsPhase_alerted_frame _ _ _ _).2.1]

theorem updateStats_alertedOrgs_mono (g a : Record → Record) (s : MonitorState)
    (r : Record) :
    (∃ l, (updateStats g a s r).1.alertedOrgs.data = s.alertedOrgs.data ++ l)
    ∧ (updateStats g a s r).1.alertedOrgs.maxsize = s.alertedOrgs.maxsize := by
  rw [updateStats_state]
  rw [(enqueuePhase_alerted_frame _ _).2.2.1]
  constructor
  · obtain ⟨l, hl⟩ := (alertRuleOrg_own (alertRuleCountry (alertRuleLongPassword
      (alertRuleHighFreq (statsPhase s r.eventid r.srcIp (a (g r))) (a (g r))).1
        (a (g r))).1 (a (g r))).1 (a (g r))).1
    rw [hl, (alertRuleCountry_frame _ _).2.1, (alertRuleLongPassword_frame _ _).2.2.1,
      (alertRuleHighFreq_frame _ _).2.1, (statsPhase_alerted_frame _ _ _ _).2.2]
    exact ⟨l, rfl⟩
  · rw [(alertRuleOrg_own _ _).2.1, (alertRuleCountry_frame _ _).2.1,
      (alertRuleLongPassword_frame _ _).2.2.1, (alertRuleHighFreq_frame _ _).2.1,
      (statsPhase_alerted_frame _ _ _ _).2.2]

theorem updateStats_highFreq_mem (g a : Record → Record) (s : MonitorState)
    (r : Record) (k : String)
    (hin : (⟨AlertCategory.highFreq, k⟩ : AlertEvent) ∈ (updateStats g a s r).2) :
    k ∉ s.alertedIps.data := by
  rw [updateStats_events, checkAlerts_events] at hin
  rcases List.mem_append.mp hin with h1 | h1
  · have hk := ((alertRuleHighFreq_own _ _).2.2.1 _ h1).1
    rwa [(statsPhase_alerted_frame _ _ _ _).1] at hk
  rcases List.mem_append.mp h1 with h2 | h2
  · have := alertRuleLongPassword_category _ _ _ h2
    simp at this
  rcases List.mem_append.mp h2 with h3 | h3
  · have := alertRuleCountry_category _ _ _ h3
    simp at this
  · have := alertRuleOrg_category _ _ _ h3
    simp at this

theorem updateStats_countryVolume_mem (g a : Record → Record) (s : MonitorState)
    (r : Record) (k : String)
    (hin : (⟨AlertCategory.countryVolume, k⟩ : AlertEvent) ∈ (updateStats g a s r).2) :
    k ∉ s.alertedCountries.data := by
  rw [updateStats_events, checkAlerts_events] at hin
  rcases List.mem_append.mp hin with h1 | h1
  · have := alertRuleHighFreq_category _ _ _ h1
    simp at this
  rcases List.mem_append.mp h1 with h2 | h2
  · have := alertRuleLongPassword_category _ _ _ h2
    simp at this
  rcases List.mem_append.mp h2 with h3 | h3
  · have hk := ((alertRuleCountry_own _ _).2.2.1 _ h3).1
    rwa [(alertRuleLongPassword_frame _ _).2.1, (alertRuleHighFreq_frame _ _).1,
      (statsPhase_alerted_frame _ _ _ _).2.1] at hk
  · have := alertRuleOrg_category _ _ _ h3
    simp at this

theorem updateStats_orgVolume_mem (g a : Record → Record) (s : MonitorState)
    (r : Record) (k : String)
    (hin : (⟨AlertCategory.orgVolume, k⟩ : AlertEvent) ∈ (updateStats g a s r).2) :
    k ∉ s.alertedOrgs.data := by
  rw [updateStats_events, checkAlerts_events] at hin
  rcases List.mem_append.mp hin with h1 | h1
  · have := alertRuleHighFreq_category _ _ _ h1
    simp at this
  rcases List.mem_append.mp h1 with h2 | h2
  · have := alertRuleLongPassword_category _ _ _ h2
    simp at this
  rcases List.mem_append.mp h2 with h3 | h3
  · have := alertRuleCountry_category _ _ _ h3
    simp at this
  · have hk := ((alertRuleOrg_own _ _).2.2.1 _ h3).1
    rwa [(alertRuleCountry_frame _ _).2.1, (alertRuleLongPassword_frame _ _).2.2.1,
      (alertRuleHighFreq_frame _ _).2.1, (statsPhase_alerted_frame _ _ _ _).2.2] at hk

theorem updateStats_highFreq_store (g a : Record → Record) (s : MonitorState)
    (r : Record) (k : String)
    (hin : (⟨AlertCategory.highFreq, k⟩ : AlertEvent) ∈ (updateStats g a s r).2)
    (hlt : s.alertedIps.data.length < s.alertedIps.maxsize) :
    k ∈ (updateStats g a s r).1.alertedIps.data := by
  rw [updateStats_state, (enqueuePhase_alerted_frame _ _).1, (alertRuleOrg_frame _ _).1,
    (alertRuleCountry_frame _ _).1, (alertRuleLongPassword_frame _ _).1]
  rw [updateStats_events, checkAlerts_events] at hin
  rcases List.mem_append.mp hin with h1 | h1
  · have hown := (alertRuleHighFreq_own (statsPhase s r.eventid r.srcIp (a (g r)))
      (a (g r))).2.2.1 _ h1
    rw [hown.2, (statsPhase_alerted_frame _ _ _ _).1]
    exact BoundedSet.mem_add_self _ _ hlt
  · exfalso
    rcases List.mem_append.mp h1 with h2 | h2
    · have := alertRuleLongPassword_category _ _ _ h2
      simp at this
    rcases List.mem_append.mp h2 with h3 | h3
    · have := alertRuleCountry_category _ _ _ h3
      simp at this
    · have := alertRuleOrg_category _ _ _ h3
      simp at this

theorem updateStats_countryVolume_store (g a : Record → Record) (s : MonitorState)
    (r : Record) (k : String)
    (hin : (⟨AlertCategory.countryVolume, k⟩ : AlertEvent) ∈ (updateStats g a s r).2)
    (hlt : s.alertedCountries.data.length < s.alertedCountries.maxsize) :
    k ∈ (updateStats g a s r).1.alertedCountries.data := by
  rw [updateStats_state, (enqueuePhase_alerted_frame _ _).2.1, (alertRuleOrg_frame _ _).2.1]
  rw [updateStats_events, checkAlerts_events] at hin
  rcases List.mem_append.mp hin with h1 | h1
  · exfalso
    have := alertRuleHighFreq_category _ _ _ h1
    simp at this
  rcases List.mem_append.mp h1 with h2 | h2
  · exfalso
    have := alertRuleLongPassword_category _ _ _ h2
    simp at this
  rcases List.mem_append.mp h2 with h3 | h3
  · have hown := (alertRuleCountry_own (alertRuleLongPassword
      (alertRuleHighFreq (statsPhase s r.eventid r.srcIp (a (g r))) (a (g r))).1
        (a (g r))).1 (a (g r))).2.2.1 _ h3
    rw [hown.2, (alertRuleLongPassword_frame _ _).2.1, (alertRuleHighFreq_frame _ _).1,
      (statsPhase_alerted_frame _ _ _ _).2.1]
    exact BoundedSet.mem_add_self _ _ hlt
  · exfalso
    have := alertRuleOrg_category _ _ _ h3
    simp at this

theorem updateStats_orgVolume_store (g a : Record → Record) (s : MonitorState)
    (r : Record) (k : String)
    (hin : (⟨AlertCategory.orgVolume, k⟩ : AlertEvent) ∈ (updateStats g a s r).2)
    (hlt : s.alertedOrgs.data.length < s.alertedOrgs.maxsize) :
    k ∈ (updateStats g a s r).1.alertedOrgs.data := by
  rw [updateStats_state, (enqueuePhase_alerted_frame _ _).2.2.1]
  rw [updateStats_events, checkAlerts_events] at hin
  rcases List.mem_append.mp hin with h1 | h1
  · exfalso
    have := alertRuleHighFreq_category _ _ _ h1
    simp at this
  rcases List.mem_append.mp h1 with h2 | h2
  · exfalso
    have := alertRuleLongPassword_category _ _ _ h2
    simp at this
  rcases List.mem_append.mp h2 with h3 | h3
  · exfalso
    have := alertRuleCountry_category _ _ _ h3
    simp at this
  · have hown := (alertRuleOrg_own (alertRuleCountry (alertRuleLongPassword
      (alertRuleHighFreq (statsPhase s r.eventid r.srcIp (a (g r))) (a (g r))).1
        (a (g r))).1 (a (g r))).1 (a (g r))).2.2.1 _ h3
    rw [hown.2, (alertRuleCountry_frame _ _).2.1, (alertRuleLongPassword_frame _ _).2.2.1,
      (alertRuleHighFreq_frame _ _).2.1, (statsPhase_alerted_frame _ _ _ _).2.2]
    exact BoundedSet.mem_add_self _ _ hlt

theorem updateStats_highFreq_once (g a : Record → Record) (s : MonitorState)
    (r : Record) (k : String) :
    (updateStats g a s r).2.countP
      (fun e => e = (⟨AlertCategory.highFreq, k⟩ : AlertEvent)) ≤ 1 := by
  rw [updateStats_events, checkAlerts_events]
  simp only [List.countP_append]
  rw [countP_eq_zero_of_category_ne _ _ ⟨AlertCategory.highFreq, k⟩ (by simp)
      (alertRuleLongPassword_category _ _),
    countP_eq_zero_of_category_ne _ _ ⟨AlertCategory.highFreq, k⟩ (by simp)
      (alertRuleCountry_category _ _),
    countP_eq_zero_of_category_ne _ _ ⟨AlertCategory.highFreq, k⟩ (by simp)
      (alertRuleOrg_category _ _)]
  have hle := List.countP_le_length
    (p := fun e => e = (⟨AlertCategory.highFreq, k⟩ : AlertEvent))
    (l := (alertRuleHighFreq (statsPhase s r.eventid r.srcIp (a (g r))) (a (g r))).2)
  have hlen := (alertRuleHighFreq_own (statsPhase s r.eventid r.srcIp (a (g r)))
    (a (g r))).2.2.2
  omega

theorem updateStats_countryVolume_once (g a : Record → Record) (s : MonitorState)
    (r : Record) (k : String) :
    (updateStats g a s r).2.countP
      (fun e => e = (⟨AlertCategory.countryVolume, k⟩ : AlertEvent)) ≤ 1 := by
  rw [updateStats_events, checkAlerts_events]
  simp only [List.countP_append]
  rw [countP_eq_zero_of_category_ne _ _ ⟨AlertCategory.countryVolume, k⟩ (by simp)
      (alertRuleHighFreq_category _ _),
    countP_eq_zero_of_category_ne _ _ ⟨AlertCategory.countryVolume, k⟩ (by simp)
      (alertRuleLongPassword_category _ _),
    countP_eq_zero_of_category_ne _ _ ⟨AlertCategory.countryVolume, k⟩ (by simp)
      (alertRuleOrg_category _ _)]
  have hle := List.countP_le_length
    (p := fun e => e = (⟨AlertCategory.countryVolume, k⟩ : AlertEvent))
    (l := (alertRuleCountry (alertRuleLongPassword
      (alertRuleHighFreq (statsPhase s r.eventid r.srcIp (a (g r))) (a (g r))).1
        (a (g r))).1 (a (g r))).2)
  have hlen := (alertRuleCountry_own (alertRuleLongPassword
    (alertRuleHighFreq (statsPhase s r.eventid r.srcIp (a (g r))) (a (g r))).1
      (a (g r))).1 (a (g r))).2.2.2
  omega

theorem updateStats_orgVolume_once (g a : Record → Record) (s : MonitorState)
    (r : Record) (k : String) :
    (updateStats g a s r).2.countP
      (fun e => e = (⟨AlertCategory.orgVolume, k⟩ : AlertEvent)) ≤ 1 := by
  rw [updateStats_events, checkAlerts_events]
  simp only [List.countP_append]
  rw [countP_eq_zero_of_category_ne _ _ ⟨AlertCategory.orgVolume, k⟩ (by simp)
      (alertRuleHighFreq_category _ _),
    countP_eq_zero_of_category_ne _ _ ⟨AlertCategory.orgVolume, k⟩ (by simp)
      (alertRuleLongPassword_category _ _),
    countP_eq_zero_of_category_ne _ _ ⟨AlertCategory.orgVolume, k⟩ (by simp)
      (alertRuleCountry_category _ _)]
  have hle := List.countP_le_length
    (p := fun e => e = (⟨AlertCategory.orgVolume, k⟩ : AlertEvent))
    (l := (alertRuleOrg (alertRuleCountry (alertRuleLongPassword
      (alertRuleHighFreq (statsPhase s r.eventid r.srcIp (a (g r))) (a (g r))).1
        (a (g r))).1 (a (g r))).1 (a (g r))).2)
  have hlen := (alertRuleOrg_own (alertRuleCountry (alertRuleLongPassword
    (alertRuleHighFreq (statsPhase s r.eventid r.srcIp (a (g r))) (a (g r))).1
      (a (g r))).1 (a (g r))).1 (a (g r))).2.2.2
  omega

/-! ## Run-level de-duplication -/

theorem run_alerted_mono (proj : MonitorState → BoundedSet String)
    (g a : Record → Record)
    (hstep : ∀ s r, (∃ l, (proj (updateStats g a s r).1).data = (proj s).data ++ l)
        ∧ (proj (updateStats g a s r).1).maxsize = (proj s).maxsize) :
    ∀ (rs : List Record) (s : MonitorState),
      (∃ l, (proj (runUpdates g a s rs).1).data = (proj s).data ++ l)
      ∧ (proj (runUpdates g a s rs).1).maxsize = (proj s).maxsize := by
  intro rs
  induction rs with
  | nil =>
    intro s
    rw [runUpdates_nil]
    exact ⟨⟨[], by simp⟩, rfl⟩
  | cons r rs ih =>
    intro s
    rw [runUpdates_cons]
    dsimp only
    obtain ⟨⟨l1, h1⟩, hm1⟩ := hstep s r
    obtain ⟨⟨l2, h2⟩, hm2⟩ := ih (updateStats g a s r).1
    exact ⟨⟨l1 ++ l2, by rw [h2, h1, List.append_assoc]⟩, by rw [hm2, hm1]⟩

theorem run_dedup_zero (proj : MonitorState → BoundedSet String)
    (g a : Record → Record) (ck : AlertEvent)
    (hstep : ∀ s r, ∃ l, (proj (updateStats g a s r).1).data = (proj s).data ++ l)
    (hmem : ∀ s r, ck ∈ (updateStats g a s r).2 → ck.key ∉ (proj s).data) :
    ∀ (rs : List Record) (s : MonitorState), ck.key ∈ (proj s).data →
      (runUpdates g a s rs).2.countP (fun e => e = ck) = 0 := by
  intro rs
  induction rs with
  | nil =>
    intro s _
    rw [runUpdates_nil]
    rfl
  | cons r rs ih =>
    intro s hk
    rw [runUpdates_cons]
    dsimp only
    rw [List.countP_append]
    have hz : (updateStats g a s r).2.countP (fun e => e = ck) = 0 := by
      rw [List.countP_eq_zero]
      intro ev hv
      simp only [decide_eq_true_eq]
      intro he
      subst he
      exact hmem s r hv hk
    obtain ⟨l, hl⟩ := hstep s r
    have hk2 : ck.key ∈ (proj (updateStats g a s r).1).data := by
      rw [hl]
      exact List.mem_append_left _ hk
    rw [hz, ih _ hk2]

theorem run_dedup_le_one (proj : MonitorState → BoundedSet String)
    (g a : Record → Record) (ck : AlertEvent)
    (hstep : ∀ s r, (∃ l, (proj (updateStats g a s r).1).data = (proj s).data ++ l)
        ∧ (proj (updateStats g a s r).1).maxsize = (proj s).maxsize)
    (hmem : ∀ s r, ck ∈ (updateStats g a s r).2 → ck.key ∉ (proj s).data)
    (hstore : ∀ s r, ck ∈ (updateStats g a s r).2 →
        (proj s).data.length < (proj s).maxsize →
        ck.key ∈ (proj (updateStats g a s r).1).data)
    (honce : ∀ s r, (updateStats g a s r).2.countP (fun e => e = ck) ≤ 1) :
    ∀ (rs : List Record) (s : MonitorState),
      (proj (runUpdates g a s rs).1).data.length
        < (proj (runUpdates g a s rs).1).maxsize →
      (runUpdates g a s rs).2.countP (fun e => e = ck) ≤ 1 := by
  intro rs
  induction rs with
  | nil =>
    intro s _
    rw [runUpdates_nil]
    simp
  | cons r rs ih =>
    intro s hcap
    rw [runUpdates_cons] at hcap ⊢
    dsimp only at hcap ⊢
    rw [List.countP_append]
    by_cases hck : ck ∈ (updateStats g a s r).2
    · have hm1 := hstep s r
      have hm2 := run_alerted_mono proj g a hstep rs (updateStats g a s r).1
      have hlen : (proj s).data.length < (proj s).maxsize := by
        obtain ⟨⟨l1, h1⟩, hx1⟩ := hm1
        obtain ⟨⟨l2, h2⟩, hx2⟩ := hm2
        rw [h2, h1, hx2, hx1] at hcap
        simp only [List.length_append] at hcap
        omega
      have hst := hstore s r hck hlen
      have hz := run_dedup_zero proj g a ck (fun s r => (hstep s r).1) hmem rs _ hst
      rw [hz]
      have hone := honce s r
      omega
    · have hz : (updateStats g a s r).2.countP (fun e => e = ck) = 0 := by
        rw [List.countP_eq_zero]
        intro ev hv
        simp only [decide_eq_true_eq]
        intro he
        subst he
        exact hck hv
      rw [hz]
      simp only [Nat.zero_add]
      exact ih _ hcap

/-- C3 (amended): for any enrichment collaborators, any starting state and any
record sequence, each alert key of a de-duplicated category triggers at most
one alert of that category over the whole run, provided the category's
already-alerted bounded set has not reached its capacity by the end of the run
(capacities 10000 addresses / 500 countries / 5000 organizations on a fresh
monitor).  Once such a set is full, keys that could not be stored may alert
repeatedly (see the counterexample), and the long-password alert stays
un-deduplicated by design. -/
theorem C3_alert_dedup_within_capacity (g a : Record → Record)
    (rs : List Record) (s : MonitorState) (k : String) :
    ((runUpdates g a s rs).1.alertedIps.data.length
        < (runUpdates g a s rs).1.alertedIps.maxsize →
      (runUpdates g a s rs).2.countP
        (fun e => e = (⟨AlertCategory.highFreq, k⟩ : AlertEvent)) ≤ 1)
    ∧ ((runUpdates g a s rs).1.alertedCountries.data.length
        < (runUpdates g a s rs).1.alertedCountries.maxsize →
      (runUpdates g a s rs).2.countP
        (fun e => e = (⟨AlertCategory.countryVolume, k⟩ : AlertEvent)) ≤ 1)
    ∧ ((runUpdates g a s rs).1.alertedOrgs.data.length
        < (runUpdates g a s rs).1.alertedOrgs.maxsize →
      (runUpdates g a s rs).2.countP
        (fun e => e = (⟨AlertCategory.orgVolume, k⟩ : AlertEvent)) ≤ 1) := by
  refine ⟨fun hcap => ?_, fun hcap => ?_, fun hcap => ?_⟩
  · exact run_dedup_le_one (fun st => st.alertedIps) g a ⟨AlertCategory.highFreq, k⟩
      (fun s r => updateStats_alertedIps_mono g a s r)
      (fun s r h => updateStats_highFreq_mem g a s r k h)
      (fun s r h hl => updateStats_highFreq_store g a s r k h hl)
      (fun s r => updateStats_highFreq_once g a s r k) rs s hcap
  · exact run_dedup_le_one (fun st => st.alertedCountries) g a
      ⟨AlertCategory.countryVolume, k⟩
      (fun s r => updateStats_alertedCountries_mono g a s r)
      (fun s r h => updateStats_countryVolume_mem g a s r k h)
      (fun s r h hl => updateStats_countryVolume_store g a s r k h hl)
      (fun s r => updateStats_countryVolume_once g a s r k) rs s hcap
  · exact run_dedup_le_one (fun st => st.alertedOrgs) g a ⟨AlertCategory.orgVolume, k⟩
      (fun s r => updateStats_alertedOrgs_mono g a s r)
      (fun s r h => updateStats_orgVolume_mem g a s r k h)
      (fun s r h hl => updateStats_orgVolume_store g a s r k h hl)
      (fun s r => updateStats_orgVolume_once g a s r k) rs s hcap

set_option maxRecDepth 100000 in
/-- C3 witness: the amended theorem applied to the twelve-connect run, whose
final alerted-address set (one address) is far below its capacity of 10000;
the high-frequency alert for that address fires at most once. -/
theorem C3_alert_dedup_within_capacity_witness :
    (c5Run 12).1.alertedIps.data.length < (c5Run 12).1.alertedIps.maxsize
    ∧ (c5Run 12).2.countP
        (fun e => e = (⟨AlertCategory.highFreq, "1.2.3.4"⟩ : AlertEvent)) ≤ 1 :=
  ⟨by decide,
    (C3_alert_dedup_within_capacity id id (List.replicate 12 connRec)
      (initMonitorState defaultConfig) "1.2.3.4").1 (by decide)⟩

/-! ## Counter lemmas for the de-duplication counterexample trace -/

theorem assocGet_append_last {α : Type} [DecidableEq α]
    (D : List (α × Nat)) (k : α) (v : Nat) (hk : k ∉ D.map Prod.fst) :
    assocGet (D ++ [(k, v)]) k = some v := by
  induction D with
  | nil => simp [assocGet]
  | cons p rest ih =>
    simp only [List.map_cons, List.mem_cons, not_or] at hk
    rw [List.cons_append]
    show (if p.1 = k then some p.2 else assocGet (rest ++ [(k, v)]) k) = some v
    rw [if_neg (Ne.symm hk.1)]
    exact ih hk.2

theorem assocSet_append_last {α : Type} [DecidableEq α]
    (D : List (α × Nat)) (k : α) (v w : Nat) (hk : k ∉ D.map Prod.fst) :
    assocSet (D ++ [(k, v)]) k w = D ++ [(k, w)] := by
  induction D with
  | nil => simp [assocSet]
  | cons p rest ih =>
    simp only [List.map_cons, List.mem_cons, not_or] at hk
    rw [List.cons_append]
    show (if p.1 = k then (k, w) :: (rest ++ [(k, v)]) else (p.1, p.2) :: assocSet (rest ++ [(k, v)]) k w)
        = p :: (rest ++ [(k, w)])
    rw [if_neg (Ne.symm hk.1), ih hk.2]

theorem BoundedCounter.increment_fresh {α : Type} [DecidableEq α]
    (m : List (α × Nat)) (M : Nat) (k : α)
    (hk : k ∉ m.map Prod.fst) (hlen : m.length + 1 ≤ M) :
    (BoundedCounter.increment ⟨m, M⟩ k) = (1, ⟨m ++ [(k, 1)], M⟩) := by
  have hget : assocGet m k = none := assocGet_not_mem m k hk
  have hno : ¬ (m ++ [(k, 1)]).length > M := by
    simp only [List.length_append, List.length_singleton]
    omega
  have h1 : (⟨m, M⟩ : BoundedCounter α).increment k
      = ((assocGet (m ++ [(k, 1)]) k).getD 0,
          BoundedCounter.maybeEvict ⟨m ++ [(k, 1)], M⟩) := by
    unfold BoundedCounter.increment
    rw [hget]
    simp only [Option.getD_none, Nat.zero_add]
    rw [assocSet_not_mem m k 1 hk]
  rw [h1, assocGet_append_last m k 1 hk,
    BoundedCounter.maybeEvict_id ⟨m ++ [(k, 1)], M⟩ hno]
  rfl

theorem BoundedCounter.increment_last {α : Type} [DecidableEq α]
    (D : List (α × Nat)) (M : Nat) (k : α) (v : Nat)
    (hk : k ∉ D.map Prod.fst) (hlen : D.length + 1 ≤ M) :
    (BoundedCounter.increment ⟨D ++ [(k, v)], M⟩ k) = (v + 1, ⟨D ++ [(k, v + 1)], M⟩) := by
  have hget : assocGet (D ++ [(k, v)]) k = some v := assocGet_append_last D k v hk
  have hno : ¬ (D ++ [(k, v + 1)]).length > M := by
    simp only [List.length_append, List.length_singleton]
    omega
  have h1 : (⟨D ++ [(k, v)], M⟩ : BoundedCounter α).increment k
      = ((assocGet (D ++ [(k, v + 1)]) k).getD 0,
          BoundedCounter.maybeEvict ⟨D ++ [(k, v + 1)], M⟩) := by
    unfold BoundedCounter.increment
    rw [hget]
    simp only [Option.getD_some]
    rw [assocSet_append_last D k v (v + 1) hk]
  rw [h1, assocGet_append_last D k (v + 1) hk,
    BoundedCounter.maybeEvict_id ⟨D ++ [(k, v + 1)], M⟩ hno]
  rfl

theorem BoundedCounter.get_append_last {α : Type} [DecidableEq α]
    (D : List (α × Nat)) (M : Nat) (k : α) (v : Nat) (hk : k ∉ D.map Prod.fst) :
    (⟨D ++ [(k, v)], M⟩ : BoundedCounter α).get k = v := by
  unfold BoundedCounter.get
  rw [assocGet_append_last D k v hk]
  rfl

theorem BoundedCounter.get_fresh {α : Type} [DecidableEq α]
    (m : List (α × Nat)) (M : Nat) (k : α) (hk : k ∉ m.map Prod.fst) :
    (⟨m, M⟩ : BoundedCounter α).get k = 0 := by
  unfold BoundedCounter.get
  rw [assocGet_not_mem m k hk]
  rfl

/-! ## Reduction of the pipeline on a country-only record -/

theorem countryRec_eventid (c : String) : (countryRec c).eventid = none := rfl

theorem countryRec_srcIp (c : String) : (countryRec c).srcIp = none := rfl

theorem dispatchStage_countryRec (s : MonitorState) (ip : Option String) (c : String) :
    dispatchStage s none ip (countryRec c) = s := by
  unfold dispatchStage
  rw [if_neg (by simp), if_neg (by simp), if_neg (by simp), if_neg (by simp)]

theorem mapStage_countryRec (s : MonitorState) (ev : Option String) (c : String) :
    mapStage s ev (countryRec c) = s := rfl

theorem countryStage_countryRec (s : MonitorState) (c : String) (hc : ¬ c = "Unknown") :
    countryStage s (countryRec c) = { s with countries := (s.countries.increment c).2 } := by
  unfold countryStage countryRec emptyRecord
  dsimp only
  simp only [Option.getD_some]
  rw [if_pos hc]

theorem orgStage_countryRec (s : MonitorState) (c : String) :
    orgStage s (countryRec c) = s := rfl

theorem asnStage_countryRec (s : MonitorState) (c : String) :
    asnStage s (countryRec c) = s := rfl

theorem statsPhase_countryRec (s : MonitorState) (c : String) (hc : ¬ c = "Unknown") :
    (statsPhase s none none (countryRec c)).countries = (s.countries.increment c).2
    ∧ (statsPhase s none none (countryRec c)).alertedCountries = s.alertedCountries := by
  unfold statsPhase
  rw [dispatchStage_countryRec, mapStage_countryRec, countryStage_countryRec _ _ hc,
    orgStage_countryRec, asnStage_countryRec]
  exact ⟨(timelineDirtyStage_frame _ _ _ _).2.2.2.1, (timelineDirtyStage_frame _ _ _ _).2.1⟩

theorem alertRuleHighFreq_countryRec (s : MonitorState) (c : String) :
    alertRuleHighFreq s (countryRec c) = (s, []) := by
  unfold alertRuleHighFreq
  dsimp only
  rw [if_neg (by simp [countryRec, emptyRecord])]

theorem alertRuleLongPassword_countryRec (s : MonitorState) (c : String) :
    alertRuleLongPassword s (countryRec c) = (s, []) := by
  unfold alertRuleLongPassword
  dsimp only
  rw [if_neg (by simp [countryRec, emptyRecord])]

theorem alertRuleCountry_countryRec (s : MonitorState) (c : String) :
    alertRuleCountry s (countryRec c)
      = if ¬ c = "Unknown" ∧ 20 < s.countries.get c ∧ ¬ c ∈ s.alertedCountries.data
        then ({ s with alertedCountries := s.alertedCountries.add c
                       alerts := s.alerts.push
                         (mkAlert "MEDIUM" ("High attack volume from " ++ c) (countryRec c)) },
              [⟨AlertCategory.countryVolume, c⟩])
        else (s, []) := by
  unfold alertRuleCountry
  rfl

theorem alertRuleOrg_countryRec (s : MonitorState) (c : String) :
    alertRuleOrg s (countryRec c) = (s, []) := rfl

/-- One `update_stats` call on a country-only record: the two projections that
drive the country-volume rule, and the emitted events. -/
theorem step_countryRec (s : MonitorState) (c : String) (hc : ¬ c = "Unknown") :
    (updateStats id id s (countryRec c)).1.countries = (s.countries.increment c).2
    ∧ (updateStats id id s (countryRec c)).1.alertedCountries
        = (if 20 < (s.countries.increment c).2.get c ∧ ¬ c ∈ s.alertedCountries.data
           then s.alertedCountries.add c else s.alertedCountries)
    ∧ (updateStats id id s (countryRec c)).2
        = (if 20 < (s.countries.increment c).2.get c ∧ ¬ c ∈ s.alertedCountries.data
           then [⟨AlertCategory.countryVolume, c⟩] else []) := by
  have hstats := statsPhase_countryRec s c hc
  have hst : (updateStats id id s (countryRec c)).1
      = enqueuePhase
          (alertRuleOrg
            (alertRuleCountry
              (alertRuleLongPassword
                (alertRuleHighFreq (statsPhase s none none (countryRec c))
                  (countryRec c)).1
                (countryRec c)).1
              (countryRec c)).1
            (countryRec c)).1
          (countryRec c) := rfl
  have hev : (updateStats id id s (countryRec c)).2
      = (alertRuleHighFreq (statsPhase s none none (countryRec c)) (countryRec c)).2
        ++ ((alertRuleLongPassword (alertRuleHighFreq (statsPhase s none none (countryRec c))
              (countryRec c)).1 (countryRec c)).2
        ++ ((alertRuleCountry (alertRuleLongPassword (alertRuleHighFreq
              (statsPhase s none none (countryRec c)) (countryRec c)).1 (countryRec c)).1
              (countryRec c)).2
        ++ (alertRuleOrg (alertRuleCountry (alertRuleLongPassword (alertRuleHighFreq
              (statsPhase s none none (countryRec c)) (countryRec c)).1 (countryRec c)).1
              (countryRec c)).1 (countryRec c)).2)) := by
    have h0 : (updateStats id id s (countryRec c)).2
        = (checkAlerts (statsPhase s none none (countryRec c)) (countryRec c)).2 := rfl
    rw [h0, checkAlerts_events]
  rw [hst, hev, alertRuleHighFreq_countryRec, alertRuleLongPassword_countryRec]
  dsimp only
  rw [alertRuleCountry_countryRec]
  have hcond : (¬ c = "Unknown" ∧ 20 < (statsPhase s none none (countryRec c)).countries.get c
      ∧ ¬ c ∈ (statsPhase s none none (countryRec c)).alertedCountries.data)
      ↔ (20 < (s.countries.increment c).2.get c ∧ ¬ c ∈ s.alertedCountries.data) := by
    rw [hstats.1, hstats.2]
    constructor
    · intro h
      exact h.2
    · intro h
      exact ⟨hc, h⟩
  by_cases h : 20 < (s.countries.increment c).2.get c ∧ ¬ c ∈ s.alertedCountries.data
  · rw [if_pos (hcond.mpr h), if_pos h, if_pos h]
    dsimp only
    rw [alertRuleOrg_countryRec]
    dsimp only
    refine ⟨?_, ?_, by simp⟩
    · rw [(enqueuePhase_alerted_frame _ _).2.2.2]
      exact hstats.1
    · rw [(enqueuePhase_alerted_frame _ _).2.1]
      show (statsPhase s none none (countryRec c)).alertedCountries.add c
          = s.alertedCountries.add c
      rw [hstats.2]
  · rw [if_neg (fun hx => h (hcond.mp hx)), if_neg h, if_neg h]
    dsimp only
    rw [alertRuleOrg_countryRec]
    dsimp only
    refine ⟨?_, ?_, by simp⟩
    · rw [(enqueuePhase_alerted_frame _ _).2.2.2]
      exact hstats.1
    · rw [(enqueuePhase_alerted_frame _ _).2.1]
      exact hstats.2

/-! ## Country-name facts and specialized step lemmas -/

theorem cname_ne_unknown (i : Nat) : ¬ cname i = "Unknown" := by
  intro h
  unfold cname at h
  have hdata : List.replicate (i + 1) 'a' = "Unknown".data := congrArg String.data h
  have h7 : "Unknown".data.length = 7 := by decide
  have hlen : i + 1 = 7 := by
    have hl := congrArg List.length hdata
    rw [List.length_replicate, h7] at hl
    exact hl
  rw [hlen] at hdata
  exact absurd hdata (by decide)

theorem cname_injective (i j : Nat) (h : cname i = cname j) : i = j := by
  unfold cname at h
  have hdata : List.replicate (i + 1) 'a' = List.replicate (j + 1) 'a' :=
    congrArg String.data h
  have hl := congrArg List.length hdata
  simp only [List.length_replicate] at hl
  omega

theorem cname_not_mem_range (k : Nat) :
    ¬ cname k ∈ (List.range k).map cname := by
  intro h
  obtain ⟨i, hi, hci⟩ := List.mem_map.mp h
  rw [List.mem_range] at hi
  have := cname_injective i k hci
  omega

theorem keys_cname_map (k : Nat) :
    (((List.range k).map (fun i => (cname i, 21))).map Prod.fst)
      = (List.range k).map cname := by
  rw [List.map_map]
  rfl

/-- A fresh country entering the counter below the alert threshold. -/
theorem step_countryRec_fresh (s : MonitorState) (c : String) (hc : ¬ c = "Unknown")
    (D : List (String × Nat)) (hD : s.countries = ⟨D, 500⟩)
    (hk : c ∉ D.map Prod.fst) (hlen : D.length + 1 ≤ 500) :
    (updateStats id id s (countryRec c)).1.countries = ⟨D ++ [(c, 1)], 500⟩
    ∧ (updateStats id id s (countryRec c)).1.alertedCountries = s.alertedCountries
    ∧ (updateStats id id s (countryRec c)).2 = [] := by
  have hstep := step_countryRec s c hc
  have hinc : s.countries.increment c = (1, ⟨D ++ [(c, 1)], 500⟩) := by
    rw [hD]
    exact BoundedCounter.increment_fresh D 500 c hk hlen
  have hget : (s.countries.increment c).2.get c = 1 := by
    rw [hinc]
    exact BoundedCounter.get_append_last D 500 c 1 hk
  have hcond : ¬ (20 < (s.countries.increment c).2.get c
      ∧ ¬ c ∈ s.alertedCountries.data) := by
    rw [hget]
    intro hx
    exact absurd hx.1 (by omega)
  refine ⟨?_, ?_, ?_⟩
  · rw [hstep.1, hinc]
  · rw [hstep.2.1, if_neg hcond]
  · rw [hstep.2.2, if_neg hcond]

/-- Bumping the trailing country while the post-increment count stays at or
below the threshold emits nothing. -/
theorem step_countryRec_bump (s : MonitorState) (c : String) (hc : ¬ c = "Unknown")
    (D : List (String × Nat)) (v : Nat) (hD : s.countries = ⟨D ++ [(c, v)], 500⟩)
    (hk : c ∉ D.map Prod.fst) (hlen : D.length + 1 ≤ 500) (hv : v + 1 ≤ 20) :
    (updateStats id id s (countryRec c)).1.countries = ⟨D ++ [(c, v + 1)], 500⟩
    ∧ (updateStats id id s (countryRec c)).1.alertedCountries = s.alertedCountries
    ∧ (updateStats id id s (countryRec c)).2 = [] := by
  have hstep := step_countryRec s c hc
  have hinc : s.countries.increment c = (v + 1, ⟨D ++ [(c, v + 1)], 500⟩) := by
    rw [hD]
    exact BoundedCounter.increment_last D 500 c v hk hlen
  have hget : (s.countries.increment c).2.get c = v + 1 := by
    rw [hinc]
    exact BoundedCounter.get_append_last D 500 c (v + 1) hk
  have hcond : ¬ (20 < (s.countries.increment c).2.get c
      ∧ ¬ c ∈ s.alertedCountries.data) := by
    rw [hget]
    intro hx
    exact absurd hx.1 (by omega)
  refine ⟨?_, ?_, ?_⟩
  · rw [hstep.1, hinc]
  · rw [hstep.2.1, if_neg hcond]
  · rw [hstep.2.2, if_neg hcond]

/-- Bumping the trailing country past the threshold while it has not alerted
yet emits exactly one country-volume event and adds it to the alerted set. -/
theorem step_countryRec_hit (s : MonitorState) (c : String) (hc : ¬ c = "Unknown")
    (D : List (String × Nat)) (v : Nat) (hD : s.countries = ⟨D ++ [(c, v)], 500⟩)
    (hk : c ∉ D.map Prod.fst) (hlen : D.length + 1 ≤ 500) (hv : 20 < v + 1)
    (hmem : ¬ c ∈ s.alertedCountries.data) :
    (updateStats id id s (countryRec c)).1.countries = ⟨D ++ [(c, v + 1)], 500⟩
    ∧ (updateStats id id s (countryRec c)).1.alertedCountries = s.alertedCountries.add c
    ∧ (updateStats id id s (countryRec c)).2 = [⟨AlertCategory.countryVolume, c⟩] := by
  have hstep := step_countryRec s c hc
  have hinc : s.countries.increment c = (v + 1, ⟨D ++ [(c, v + 1)], 500⟩) := by
    rw [hD]
    exact BoundedCounter.increment_last D 500 c v hk hlen
  have hget : (s.countries.increment c).2.get c = v + 1 := by
    rw [hinc]
    exact BoundedCounter.get_append_last D 500 c (v + 1) hk
  have hcond : 20 < (s.countries.increment c).2.get c
      ∧ ¬ c ∈ s.alertedCountries.data := by
    rw [hget]
    exact ⟨hv, hmem⟩
  refine ⟨?_, ?_, ?_⟩
  · rw [hstep.1, hinc]
  · rw [hstep.2.1, if_pos hcond]
  · rw [hstep.2.2, if_pos hcond]

/-- Repeatedly bumping the trailing country while staying at or below the
threshold: count advances, nothing else observable happens. -/
theorem run_countryRec_bumps (c : String) (hc : ¬ c = "Unknown") :
    ∀ (n : Nat) (s : MonitorState) (D : List (String × Nat)) (v : Nat),
    s.countries = ⟨D ++ [(c, v)], 500⟩ → c ∉ D.map Prod.fst → D.length + 1 ≤ 500 →
    v + n ≤ 20 →
    (runUpdates id id s (List.replicate n (countryRec c))).1.countries
        = ⟨D ++ [(c, v + n)], 500⟩
    ∧ (runUpdates id id s (List.replicate n (countryRec c))).1.alertedCountries
        = s.alertedCountries
    ∧ (runUpdates id id s (List.replicate n (countryRec c))).2 = [] := by
  intro n
  induction n with
  | zero =>
    intro s D v hD hk hlen hv
    rw [List.replicate_zero, runUpdates_nil]
    exact ⟨hD, rfl, rfl⟩
  | succ n ih =>
    intro s D v hD hk hlen hv
    rw [List.replicate_succ, runUpdates_cons]
    dsimp only
    have hstep := step_countryRec_bump s c hc D v hD hk hlen (by omega)
    have hrec := ih (updateStats id id s (countryRec c)).1 D (v + 1) hstep.1 hk hlen
      (by omega)
    have hsum : v + 1 + n = v + (n + 1) := by omega
    rw [hsum] at hrec
    refine ⟨hrec.1, ?_, ?_⟩
    · rw [hrec.2.1, hstep.2.1]
    · rw [hstep.2.2, hrec.2.2]
      rfl

/-- A full 21-record block for a fresh country: its count reaches 21, it
alerts exactly once and is added to the alerted set. -/
theorem block_countryRec (c : String) (hc : ¬ c = "Unknown")
    (s : MonitorState) (D : List (String × Nat))
    (hD : s.countries = ⟨D, 500⟩) (hk : c ∉ D.map Prod.fst)
    (hlen : D.length + 1 ≤ 500) (hmem : ¬ c ∈ s.alertedCountries.data) :
    (runUpdates id id s (List.replicate 21 (countryRec c))).1.countries
        = ⟨D ++ [(c, 21)], 500⟩
    ∧ (runUpdates id id s (List.replicate 21 (countryRec c))).1.alertedCountries
        = s.alertedCountries.add c
    ∧ (runUpdates id id s (List.replicate 21 (countryRec c))).2
        = [⟨AlertCategory.countryVolume, c⟩] := by
  have hsplit : List.replicate 21 (countryRec c)
      = countryRec c :: (List.replicate 19 (countryRec c) ++ [countryRec c]) := rfl
  rw [hsplit, runUpdates_cons]
  dsimp only
  have h1 := step_countryRec_fresh s c hc D hD hk hlen
  rw [runUpdates_append]
  dsimp only
  have h2 := run_countryRec_bumps c hc 19
    (updateStats id id s (countryRec c)).1 D 1 h1.1 hk hlen (by omega)
  have hmid : (runUpdates id id (updateStats id id s (countryRec c)).1
      (List.replicate 19 (countryRec c))).1.countries = ⟨D ++ [(c, 20)], 500⟩ := h2.1
  have hlast : runUpdates id id (runUpdates id id (updateStats id id s (countryRec c)).1
        (List.replicate 19 (countryRec c))).1 [countryRec c]
      = ((updateStats id id (runUpdates id id (updateStats id id s (countryRec c)).1
            (List.replicate 19 (countryRec c))).1 (countryRec c)).1,
         (updateStats id id (runUpdates id id (updateStats id id s (countryRec c)).1
            (List.replicate 19 (countryRec c))).1 (countryRec c)).2 ++ []) := by
    rw [runUpdates_cons, runUpdates_nil]
  have hmem2 : ¬ c ∈ (runUpdates id id (updateStats id id s (countryRec c)).1
      (List.replicate 19 (countryRec c))).1.alertedCountries.data := by
    rw [h2.2.1, h1.2.1]
    exact hmem
  have h3 := step_countryRec_hit (runUpdates id id (updateStats id id s (countryRec c)).1
      (List.replicate 19 (countryRec c))).1 c hc D 20 hmid hk hlen (by omega) hmem2
  refine ⟨?_, ?_, ?_⟩
  · rw [hlast]
    dsimp only
    exact h3.1
  · rw [hlast]
    dsimp only
    rw [h3.2.1, h2.2.1, h1.2.1]
  · rw [hlast]
    dsimp only
    rw [h1.2.2, h2.2.2, h3.2.2]
    rfl

/-! ## Phase 1 of the de-duplication counterexample: 500 alerting countries -/

theorem phase1_chain :
    ∀ (k : Nat), k ≤ 500 →
    (runUpdates id id (initMonitorState defaultConfig)
        ((List.range k).flatMap (fun i => List.replicate 21 (countryRec (cname i))))).1.countries
      = ⟨(List.range k).map (fun i => (cname i, 21)), 500⟩
    ∧ (runUpdates id id (initMonitorState defaultConfig)
        ((List.range k).flatMap (fun i => List.replicate 21 (countryRec (cname i))))).1.alertedCountries
      = ⟨(List.range k).map cname, 500, 0⟩
    ∧ (runUpdates id id (initMonitorState defaultConfig)
        ((List.range k).flatMap (fun i => List.replicate 21 (countryRec (cname i))))).2
      = (List.range k).map (fun i => (⟨AlertCategory.countryVolume, cname i⟩ : AlertEvent)) := by
  intro k
  induction k with
  | zero =>
    intro _
    exact ⟨rfl, rfl, rfl⟩
  | succ k ih =>
    intro hk
    have hco := ih (by omega)
    rw [List.range_succ, List.flatMap_append, runUpdates_append]
    dsimp only
    have hkmem : ¬ cname k ∈ ((List.range k).map (fun i => (cname i, 21))).map Prod.fst := by
      rw [keys_cname_map]
      exact cname_not_mem_range k
    have hklen : ((List.range k).map (fun i => (cname i, 21))).length + 1 ≤ 500 := by
      rw [List.length_map, List.length_range]
      omega
    have hamem : ¬ cname k ∈ (runUpdates id id (initMonitorState defaultConfig)
        ((List.range k).flatMap (fun i => List.replicate 21 (countryRec (cname i))))).1.alertedCountries.data := by
      rw [hco.2.1]
      exact cname_not_mem_range k
    have hflat : ([k].flatMap (fun i => List.replicate 21 (countryRec (cname i))))
        = List.replicate 21 (countryRec (cname k)) := by
      simp
    rw [hflat]
    have hblock := block_countryRec (cname k) (cname_ne_unknown k)
      (runUpdates id id (initMonitorState defaultConfig)
        ((List.range k).flatMap (fun i => List.replicate 21 (countryRec (cname i))))).1
      ((List.range k).map (fun i => (cname i, 21))) hco.1 hkmem hklen hamem
    refine ⟨?_, ?_, ?_⟩
    · rw [hblock.1, List.map_append]
      rfl
    · rw [hblock.2.1, hco.2.1]
      have hadd := BoundedSet.add_stored
        (⟨(List.range k).map cname, 500, 0⟩ : BoundedSet String) (cname k)
        (cname_not_mem_range k)
        (by rw [List.length_map, List.length_range]; show k < 500; omega)
      rw [hadd, List.map_append]
      rfl
    · rw [hco.2.2, hblock.2.2, List.map_append]
      rfl

/-! ## Phase 2: eviction and the double alert -/

theorem stableInsert_front {α : Type} (le : α → α → Bool) (x : α) (S : List α)
    (h : ∀ b ∈ S, le b x = false) : stableInsert le x S = x :: S := by
  cases S with
  | nil => rfl
  | cons b l =>
    show (if le b x then b :: stableInsert le x l else x :: b :: l) = x :: b :: l
    rw [h b (List.mem_cons_self b l)]
    rfl

theorem stableSort_append_min {α : Type} (le : α → α → Bool) (x : α) (D : List α)
    (h : ∀ b ∈ D, le b x = false) :
    stableSort le (D ++ [x]) = x :: stableSort le D := by
  have h1 : stableSort le (D ++ [x]) = stableInsert le x (stableSort le D) := by
    unfold stableSort
    rw [List.foldl_append]
    rfl
  rw [h1]
  apply stableInsert_front
  intro b hb
  exact h b ((stableSort_perm le D).subset hb)

/-- Eviction of a counter that just went one over capacity 500 with a fresh
minimum-count key at the end: 50 entries go, among them the fresh key. -/
theorem maybeEvict_fresh_over (D : List (String × Nat)) (c : String)
    (hk : c ∉ D.map Prod.fst) (hnd : (D.map Prod.fst).Nodup)
    (hlen : D.length = 500) (hval : ∀ p ∈ D, p.2 = 21) :
    ∃ F, BoundedCounter.maybeEvict ⟨D ++ [(c, 1)], 500⟩ = ⟨F, 500⟩
      ∧ (F.map Prod.fst).Nodup ∧ F.length = 451 ∧ c ∉ F.map Prod.fst := by
  have hm : (D ++ [(c, 1)]).length = 501 := by
    simp only [List.length_append, List.length_singleton]
    omega
  have hgt : (D ++ [(c, 1)]).length > 500 := by omega
  have hsorted : stableSort (fun a b => a.2 ≤ b.2) (D ++ [(c, 1)])
      = (c, 1) :: stableSort (fun a b => a.2 ≤ b.2) D := by
    apply stableSort_append_min
    intro b hb
    have := hval b hb
    simp [this]
  have hkeysnd : ((D ++ [(c, 1)]).map Prod.fst).Nodup := by
    simp only [List.map_append, List.map_cons, List.map_nil]
    refine List.Nodup.append hnd (List.nodup_singleton c) ?_
    intro a ha hb
    rw [List.mem_singleton] at hb
    subst hb
    exact hk ha
  have hsortperm : ((stableSort (fun a b => a.2 ≤ b.2) (D ++ [(c, 1)])).map Prod.fst).Perm
      ((D ++ [(c, 1)]).map Prod.fst) := (stableSort_perm _ _).map Prod.fst
  have hsortnd : ((stableSort (fun a b => a.2 ≤ b.2) (D ++ [(c, 1)])).map Prod.fst).Nodup :=
    hsortperm.nodup_iff.mpr hkeysnd
  have hsortlen : ((stableSort (fun a b => a.2 ≤ b.2) (D ++ [(c, 1)])).map Prod.fst).length
      = 501 := by
    rw [List.length_map, length_stableSort, hm]
  set SK := (stableSort (fun a b => a.2 ≤ b.2) (D ++ [(c, 1)])).map Prod.fst with hSK
  set ev := SK.take (max 1 (500 / 10)) with hev
  have hevnd : ev.Nodup := (List.take_sublist _ _).nodup hsortnd
  have hevsub : ∀ x ∈ ev, x ∈ (D ++ [(c, 1)]).map Prod.fst := by
    intro x hx
    exact hsortperm.subset ((List.take_sublist _ _).subset hx)
  have hevlen : ev.length = 50 := by
    rw [hev, List.length_take, hsortlen]
    decide
  have hcev : c ∈ ev := by
    rw [hev, hSK, hsorted]
    simp only [List.map_cons]
    rw [show (max 1 (500 / 10)) = 50 from rfl]
    rw [List.take_cons]
    · exact List.mem_cons_self _ _
    · omega
  have hres : BoundedCounter.maybeEvict ⟨D ++ [(c, 1)], 500⟩
      = ⟨(D ++ [(c, 1)]).filter (fun p => decide (p.1 ∉ ev)), 500⟩ := by
    unfold BoundedCounter.maybeEvict
    rw [if_pos hgt]
  refine ⟨(D ++ [(c, 1)]).filter (fun p => decide (p.1 ∉ ev)), hres, ?_, ?_, ?_⟩
  · exact ((List.filter_sublist _).map Prod.fst).nodup hkeysnd
  · rw [length_filter_not_mem_keys _ _ hkeysnd hevnd hevsub, hm, hevlen]
  · intro hmem
    obtain ⟨p, hp, hpc⟩ := List.mem_map.mp hmem
    have := List.mem_filter.mp hp
    rw [decide_eq_true_eq] at this
    exact this.2 (hpc ▸ hcev)

/-- First record of the 501st country: its fresh entry is immediately evicted
(it is the unique minimum), no alert fires. -/
theorem step_countryRec_evict (s : MonitorState) (c : String) (hc : ¬ c = "Unknown")
    (D : List (String × Nat)) (hD : s.countries = ⟨D, 500⟩)
    (hk : c ∉ D.map Prod.fst) (hnd : (D.map Prod.fst).Nodup)
    (hlen : D.length = 500) (hval : ∀ p ∈ D, p.2 = 21) :
    ∃ F, (updateStats id id s (countryRec c)).1.countries = ⟨F, 500⟩
      ∧ (F.map Prod.fst).Nodup ∧ F.length = 451 ∧ c ∉ F.map Prod.fst
      ∧ (updateStats id id s (countryRec c)).1.alertedCountries = s.alertedCountries
      ∧ (updateStats id id s (countryRec c)).2 = [] := by
  obtain ⟨F, hF, hFnd, hFlen, hFc⟩ := maybeEvict_fresh_over D c hk hnd hlen hval
  have hstep := step_countryRec s c hc
  have hinc : s.countries.increment c = (1, ⟨F, 500⟩) := by
    rw [hD]
    have h1 : (⟨D, 500⟩ : BoundedCounter String).increment c
        = ((assocGet (D ++ [(c, 1)]) c).getD 0,
            BoundedCounter.maybeEvict ⟨D ++ [(c, 1)], 500⟩) := by
      unfold BoundedCounter.increment
      rw [assocGet_not_mem D c hk]
      simp only [Option.getD_none, Nat.zero_add]
      rw [assocSet_not_mem D c 1 hk]
    rw [h1, assocGet_append_last D c 1 hk, hF]
    rfl
  have hget : (s.countries.increment c).2.get c = 0 := by
    rw [hinc]
    exact BoundedCounter.get_fresh F 500 c hFc
  have hcond : ¬ (20 < (s.countries.increment c).2.get c
      ∧ ¬ c ∈ s.alertedCountries.data) := by
    rw [hget]
    intro hx
    exact absurd hx.1 (by omega)
  exact ⟨F, by rw [hstep.1, hinc], hFnd, hFlen, hFc,
    by rw [hstep.2.1, if_neg hcond], by rw [hstep.2.2, if_neg hcond]⟩

set_option maxRecDepth 4000 in
/-- C3 counterexample: on the overflow trace, the 501st country triggers the
country-volume alert twice — the claim's at-most-once property fails once the
already-alerted-countries set has overflowed. -/
theorem C3_counterexample :
    (runUpdates id id (initMonitorState defaultConfig) c3Trace).2.countP
      (fun e => e = (⟨AlertCategory.countryVolume, cname 500⟩ : AlertEvent)) = 2 := by
  have hphase1 := phase1_chain 500 (le_refl 500)
  unfold c3Trace
  rw [runUpdates_append]
  dsimp only
  rw [List.countP_append, hphase1.2.2]
  have hz1 : ((List.range 500).map
        (fun i => (⟨AlertCategory.countryVolume, cname i⟩ : AlertEvent))).countP
      (fun e => e = (⟨AlertCategory.countryVolume, cname 500⟩ : AlertEvent)) = 0 := by
    rw [List.countP_eq_zero]
    intro ev hv
    obtain ⟨i, hi, hievt⟩ := List.mem_map.mp hv
    rw [List.mem_range] at hi
    simp only [decide_eq_true_eq]
    intro he
    rw [← hievt] at he
    have hkey : cname i = cname 500 := congrArg AlertEvent.key he
    have := cname_injective i 500 hkey
    omega
  rw [hz1]
  have hsplit : List.replicate 23 (countryRec (cname 500))
      = countryRec (cname 500) :: (countryRec (cname 500)
        :: (List.replicate 19 (countryRec (cname 500))
            ++ [countryRec (cname 500), countryRec (cname 500)])) := rfl
  rw [hsplit]
  set c := cname 500 with hcdef
  set s500 := (runUpdates id id (initMonitorState defaultConfig)
    ((List.range 500).flatMap (fun i => List.replicate 21 (countryRec (cname i))))).1
    with hs500
  have hc : ¬ c = "Unknown" := cname_ne_unknown 500
  -- event 1: eviction
  obtain ⟨F, hFc, hFnd, hFlen, hFk, hFal, hFev⟩ := step_countryRec_evict s500 c hc
    ((List.range 500).map (fun i => (cname i, 21))) hphase1.1
    (by rw [keys_cname_map]; exact cname_not_mem_range 500)
    (by rw [keys_cname_map]
        exact (List.nodup_range 500).map (fun i j h => cname_injective i j h))
    (by rw [List.length_map, List.length_range])
    (by intro p hp
        obtain ⟨i, _, hip⟩ := List.mem_map.mp hp
        rw [← hip])
  set s1 := (updateStats id id s500 (countryRec c)).1 with hs1
  -- event 2: fresh re-entry of c at count 1
  have hFlen2 : F.length + 1 ≤ 500 := by omega
  have h2 := step_countryRec_fresh s1 c hc F hFc hFk hFlen2
  set s2 := (updateStats id id s1 (countryRec c)).1 with hs2
  -- events 3-21: bump the count from 1 to 20
  have h3 := run_countryRec_bumps c hc 19 s2 F 1 h2.1 hFk hFlen2 (by omega)
  set s3 := (runUpdates id id s2 (List.replicate 19 (countryRec c))).1 with hs3
  -- the alerted set is still the full phase-1 set and lacks c
  have halserted3 : s3.alertedCountries = ⟨(List.range 500).map cname, 500, 0⟩ := by
    rw [h3.2.1, h2.2.1, hFal, hphase1.2.1]
  have hmem3 : ¬ c ∈ s3.alertedCountries.data := by
    rw [halserted3]
    exact cname_not_mem_range 500
  -- event 22: first alert, stored nowhere (set full, overflow only)
  have h4 := step_countryRec_hit s3 c hc F 20 h3.1 hFk hFlen2 (by omega) hmem3
  set s4 := (updateStats id id s3 (countryRec c)).1 with hs4
  have halserted4 : s4.alertedCountries = ⟨(List.range 500).map cname, 500, 1⟩ := by
    rw [h4.2.1, halserted3]
    rw [BoundedSet.add_full _ _ (cname_not_mem_range 500) (by simp)]
  have hmem4 : ¬ c ∈ s4.alertedCountries.data := by
    rw [halserted4]
    exact cname_not_mem_range 500
  -- event 23: second alert for the same country
  have h5 := step_countryRec_hit s4 c hc F 21 h4.1 hFk hFlen2 (by omega) hmem4
  rw [runUpdates_cons]
  dsimp only
  rw [runUpdates_cons]
  dsimp only
  rw [runUpdates_append]
  dsimp only
  rw [runUpdates_cons]
  dsimp only
  rw [runUpdates_cons, runUpdates_nil]
  dsimp only
  rw [hFev, h2.2.2, h3.2.2, h4.2.2, h5.2.2]
  simp
